import Mathlib

/-!
# vendas-service: order write path, cache-aside listing and job queue

A shallow embedding of `vendas-service/main.go`.  The handlers are functions
from a `World` (order table, cache, job queue, and a log of the side effects
performed so far) to a new `World` and a response.  What the environment
decides during a call (whether the store fails, the readings of the clock, the
interleaving of the goroutines) is an argument of the handler.  Go's `float64`
arithmetic, the buffered channel and the external calls (MySQL, Redis,
`encoding/json`, gin's binding) are modelled explicitly below.  The cache is a
key-value map; whether it refuses a `GET`, a `SET` or a `DEL` is decided by
the environment, call by call.
-/

set_option maxRecDepth 100000

namespace Vendas

/-! ## Go `float64` -/

/-- IEEE-754 binary64 values.  `finite neg m e` denotes `(-1)^neg * m * 2^e`
in the canonical encoding: `m < 2^53`, `-1074 ≤ e ≤ 971`, `2^52 ≤ m` unless
`e = -1074`, and zero is `finite neg 0 0`. -/
inductive Float64 where
  | finite (neg : Bool) (mant : Nat) (exp : Int)
  | inf (neg : Bool)
  | nan
deriving DecidableEq, Repr

/-- Number of halvings needed to bring `n` to zero, by recursion on `fuel`. -/
def bitLengthAux : Nat → Nat → Nat
  | 0, _ => 0
  | fuel + 1, n => if n = 0 then 0 else bitLengthAux fuel (n / 2) + 1

/-- Length of the binary representation of `n` (`0` for `0`). -/
def bitLength (n : Nat) : Nat := bitLengthAux n n

/-- Exponent of the unit in the last place of the binary64 value nearest to
`m * 2^e` (`m ≠ 0`): 52 below the exponent of the leading bit, and never below
the subnormal exponent `-1074`. -/
def ulpExp (m : Nat) (e : Int) : Int :=
  max (e + (bitLength m : Int) - 1 - 52) (-1074)

/-- The quotient `m / 2^sh` rounded to the nearest integer, ties to even. -/
def roundShift (m sh : Nat) : Nat :=
  let q := m / 2 ^ sh
  let r := m % 2 ^ sh
  let half := 2 ^ (sh - 1)
  if r > half ∨ (r = half ∧ q % 2 = 1) then q + 1 else q

/-- The binary64 value `(-1)^neg * mant * 2^ulp` for a significand
`mant ≤ 2^53` already rounded at exponent `ulp`: a carry to `2^53` moves to
the next exponent, and a value beyond the largest finite one is infinite. -/
def pack (neg : Bool) (mant : Nat) (ulp : Int) : Float64 :=
  if mant = 0 then .finite neg 0 0
  else if mant = 2 ^ 53 then
    (if ulp + 1 > 971 then .inf neg else .finite neg (2 ^ 52) (ulp + 1))
  else
    (if ulp > 971 then .inf neg else .finite neg mant ulp)

/-- Round the exact value `(-1)^neg * m * 2^e` to the nearest binary64 value,
ties to even, with gradual underflow and overflow to infinity. -/
def roundBinary64 (neg : Bool) (m : Nat) (e : Int) : Float64 :=
  if m = 0 then .finite neg 0 0
  else if ulpExp m e ≤ e then pack neg (m * 2 ^ (e - ulpExp m e).toNat) (ulpExp m e)
  else pack neg (roundShift m (ulpExp m e - e).toNat) (ulpExp m e)

/-- Conversion `float64(n)` of a Go `int`. -/
def Float64.ofInt (z : Int) : Float64 :=
  roundBinary64 (decide (z < 0)) z.natAbs 0

/-- The product `a * b` of two `float64` values. -/
def Float64.mul : Float64 → Float64 → Float64
  | .nan, _ => .nan
  | _, .nan => .nan
  | .inf s, .inf t => .inf (xor s t)
  | .inf s, .finite t m _ => if m = 0 then .nan else .inf (xor s t)
  | .finite s m _, .inf t => if m = 0 then .nan else .inf (xor s t)
  | .finite s m e, .finite t n f => roundBinary64 (xor s t) (m * n) (e + f)

/-- Whether a `float64` is a finite number (neither infinite nor NaN). -/
def Float64.isFinite : Float64 → Bool
  | .finite _ _ _ => true
  | _ => false

/-- The rational number a finite `float64` stands for. -/
def Float64.toRat : Float64 → Option ℚ
  | .finite neg m e => some ((if neg then -1 else 1) * (m : ℚ) * (2 : ℚ) ^ e)
  | _ => none


deriving instance DecidableEq for Except

/-! ## Data model (`main.go`, lines 20-53) -/

/-- An instant (`time.Time`), in nanoseconds counted from Go's zero time. -/
abbrev Time := Int

/-- The struct `Venda`. -/
structure Venda where
  ID : Int
  ClienteID : Int
  ProdutoID : Int
  Quantidade : Int
  ValorTotal : Float64
  DataVenda : Time
deriving DecidableEq, Repr

/-- The struct `Produto`. -/
structure Produto where
  ID : Int
  Nome : String
  Descricao : String
  Valor : Float64
deriving DecidableEq, Repr

/-- The struct `Cliente`. -/
structure Cliente where
  ID : Int
  Nome : String
  Telefone : String
deriving DecidableEq, Repr

/-- The struct `VendaCompleta`: an embedded `Venda` with its customer and product. -/
structure VendaCompleta where
  Venda : Venda
  Cliente : Cliente
  Produto : Produto
deriving DecidableEq, Repr

/-- The struct `VendaRequest`. -/
structure VendaRequest where
  ClienteID : Int
  ProdutoID : Int
  Quantidade : Int
deriving DecidableEq, Repr

/-- Go's zero value of `Venda`. -/
def Venda.zero : Venda := ⟨0, 0, 0, 0, .finite false 0 0, 0⟩

/-- Go's zero value of `Cliente`. -/
def Cliente.zero : Cliente := ⟨0, "", ""⟩

/-- Go's zero value of `Produto`. -/
def Produto.zero : Produto := ⟨0, "", "", .finite false 0 0⟩

/-- Go's zero value of `VendaCompleta`, the content of a fresh slot of
`make([]VendaCompleta, n)`. -/
def VendaCompleta.zero : VendaCompleta := ⟨Venda.zero, Cliente.zero, Produto.zero⟩

/-! ## JSON texts -/

/-- A JSON scalar, as far as the fields of the structs need one: an integer
literal, the decimal text of a finite `float64` (which reads back as that
`float64`), a string, or the string holding the RFC 3339 text of an instant. -/
inductive JSONScalar where
  | int (n : Int)
  | float (x : Float64)
  | str (s : String)
  | time (t : Time)
deriving DecidableEq, Repr

/-- A JSON value at the depth a `VendaCompleta` has: a scalar, or an object
of scalars. -/
inductive JSONValue where
  | scalar (s : JSONScalar)
  | object (fields : List (String × JSONScalar))
deriving DecidableEq, Repr

/-- A JSON object: its members in the order of the text. -/
abbrev JSONObject := List (String × JSONValue)

/-- A text held by the cache: the JSON text of an array of objects, kept as
the array it denotes, or any other text. -/
inductive Text where
  | array (items : List JSONObject)
  | other (raw : String)
deriving DecidableEq, Repr

/-- The member of an object that the decoder keeps for `key`: the last one. -/
def member {α : Type} (fields : List (String × α)) (key : String) : Option α :=
  fields.reverse.lookup key

/-- Decoding into an `int` field; an absent member leaves the zero value. -/
def unmarshalInt : Option JSONScalar → Option Int
  | none => some 0
  | some (.int n) => some n
  | some _ => none

/-- Decoding into a `float64` field. -/
def unmarshalFloat : Option JSONScalar → Option Float64
  | none => some (.finite false 0 0)
  | some (.int n) => some (Float64.ofInt n)
  | some (.float x) => some x
  | some _ => none

/-- Decoding into a `string` field. -/
def unmarshalString : Option JSONScalar → Option String
  | none => some ""
  | some (.str s) => some s
  | some _ => none

/-- Decoding into a `time.Time` field. -/
def unmarshalTime : Option JSONScalar → Option Time
  | none => some 0
  | some (.time t) => some t
  | some _ => none

/-- The scalar under a member of the outer object; an object there is a
decoding error. -/
def scalarMember (o : JSONObject) (key : String) : Option (Option JSONScalar) :=
  match member o key with
  | none => some none
  | some (.scalar s) => some (some s)
  | some (.object _) => none

/-- The object under a member of the outer object (no member: no fields); a
scalar there is a decoding error. -/
def objectMember (o : JSONObject) (key : String) : Option (List (String × JSONScalar)) :=
  match member o key with
  | none => some []
  | some (.object fields) => some fields
  | some (.scalar _) => none

/-- The call `json.Marshal` on a `Cliente` (tags of lines 38-40). -/
def marshalCliente (c : Cliente) : List (String × JSONScalar) :=
  [("id", .int c.ID), ("nome", .str c.Nome), ("telefone", .str c.Telefone)]

/-- The call `json.Marshal` on a `Produto` (tags of lines 31-34); a value that
is not finite is an error. -/
def marshalProduto (p : Produto) : Option (List (String × JSONScalar)) :=
  if p.Valor.isFinite then
    some [("id", .int p.ID), ("nome", .str p.Nome), ("descricao", .str p.Descricao),
      ("valor", .float p.Valor)]
  else none

/-- The call `json.Marshal` on a `VendaCompleta` (tags of lines 22-27 and
44-46): the fields of the embedded `Venda` are members of the outer object. -/
def marshalVendaCompleta (v : VendaCompleta) : Option JSONObject :=
  if v.Venda.ValorTotal.isFinite then
    match marshalProduto v.Produto with
    | none => none
    | some produto =>
      some [("id", .scalar (.int v.Venda.ID)),
        ("cliente_id", .scalar (.int v.Venda.ClienteID)),
        ("produto_id", .scalar (.int v.Venda.ProdutoID)),
        ("quantidade", .scalar (.int v.Venda.Quantidade)),
        ("valor_total", .scalar (.float v.Venda.ValorTotal)),
        ("data_venda", .scalar (.time v.Venda.DataVenda)),
        ("cliente", .object (marshalCliente v.Cliente)),
        ("produto", .object produto)]
  else none

/-- The call `json.Marshal` on a `[]VendaCompleta`. -/
def marshalVendas : List VendaCompleta → Option (List JSONObject)
  | [] => some []
  | v :: vs =>
    match marshalVendaCompleta v, marshalVendas vs with
    | some o, some os => some (o :: os)
    | _, _ => none

/-- The call `json.Unmarshal` into a `Cliente`. -/
def unmarshalCliente (fields : List (String × JSONScalar)) : Option Cliente :=
  match unmarshalInt (member fields "id"), unmarshalString (member fields "nome"),
      unmarshalString (member fields "telefone") with
  | some id, some nome, some telefone => some ⟨id, nome, telefone⟩
  | _, _, _ => none

/-- The call `json.Unmarshal` into a `Produto`. -/
def unmarshalProduto (fields : List (String × JSONScalar)) : Option Produto :=
  match unmarshalInt (member fields "id"), unmarshalString (member fields "nome"),
      unmarshalString (member fields "descricao"), unmarshalFloat (member fields "valor") with
  | some id, some nome, some descricao, some valor => some ⟨id, nome, descricao, valor⟩
  | _, _, _, _ => none

/-- The call `json.Unmarshal` into a `Venda`, from the members of the outer
object. -/
def unmarshalVenda (o : JSONObject) : Option Venda :=
  match (scalarMember o "id").bind unmarshalInt,
      (scalarMember o "cliente_id").bind unmarshalInt,
      (scalarMember o "produto_id").bind unmarshalInt,
      (scalarMember o "quantidade").bind unmarshalInt,
      (scalarMember o "valor_total").bind unmarshalFloat,
      (scalarMember o "data_venda").bind unmarshalTime with
  | some id, some cliente, some produto, some quantidade, some valor, some data =>
    some ⟨id, cliente, produto, quantidade, valor, data⟩
  | _, _, _, _, _, _ => none

/-- The call `json.Unmarshal` into a `VendaCompleta`. -/
def unmarshalVendaCompleta (o : JSONObject) : Option VendaCompleta :=
  match unmarshalVenda o, (objectMember o "cliente").bind unmarshalCliente,
      (objectMember o "produto").bind unmarshalProduto with
  | some venda, some cliente, some produto => some ⟨venda, cliente, produto⟩
  | _, _, _ => none

/-- The call `json.Unmarshal` into a `[]VendaCompleta`, element by element. -/
def unmarshalVendas : List JSONObject → Option (List VendaCompleta)
  | [] => some []
  | o :: os =>
    match unmarshalVendaCompleta o, unmarshalVendas os with
    | some v, some vs => some (v :: vs)
    | _, _ => none

/-! ## Reference data (lines 77-102) -/

/-- The map `clientes`. -/
def clientes : List (Int × Cliente) :=
  [(1, ⟨1, "João", "99999-0001"⟩), (2, ⟨2, "Maria", "99999-0002"⟩)]

/-- The map `produtos`; the unit values are the constants `10.0` and `20.0`. -/
def produtos : List (Int × Produto) :=
  [(1, ⟨1, "Produto A", "Descrição A", Float64.ofInt 10⟩),
   (2, ⟨2, "Produto B", "Descrição B", Float64.ofInt 20⟩)]

/-- The function `buscarCliente`. -/
def buscarCliente (clienteID : Int) : Except String Cliente :=
  match clientes.lookup clienteID with
  | none => .error "cliente não encontrado"
  | some c => .ok c

/-- The function `buscarProduto`. -/
def buscarProduto (produtoID : Int) : Except String Produto :=
  match produtos.lookup produtoID with
  | none => .error "produto não encontrado"
  | some p => .ok p

/-! ## External collaborators: order table, cache, codec, job queue -/

/-- A row of table `vendas` (schema of `inicializarBanco`, lines 236-243).
`data_venda` is the one column declared without `NOT NULL`.  The table keeps
`valor_total` as the value it was given. -/
structure Row where
  id : Int
  cliente_id : Int
  produto_id : Int
  quantidade : Int
  valor_total : Float64
  data_venda : Option Time
deriving DecidableEq, Repr

/-- The table `vendas` with its `AUTO_INCREMENT` counter. -/
structure DB where
  vendas : List Row
  autoIncrement : Int
deriving DecidableEq, Repr

/-- A key of the cache with its value and time to live (nanoseconds). -/
structure CacheEntry where
  value : Text
  expiration : Nat
deriving DecidableEq, Repr

/-- The keys held by the Redis server. -/
abbrev Redis := List (String × CacheEntry)

/-- The event published by `processarVenda`. -/
structure Evento where
  tipo : String
  cliente_id : Int
  produto_id : Int
  timestamp : Time
deriving DecidableEq, Repr

/-- The side effects a handler or a worker performs on its collaborators: the
rows written to the store, the `SET` and `DEL` commands sent to the cache
(whether the cache carries them out or refuses them), the sends on and the
receptions from the job queue, and the publications.  Reads are not logged. -/
inductive Effect where
  | dbInsert (cliente_id produto_id quantidade : Int) (valor_total : Float64) (data_venda : Time)
  | cacheSet (key : String) (value : Text) (expiration : Nat)
  | cacheDel (key : String)
  | enqueue (job : VendaRequest)
  | dequeue (worker : Nat) (job : VendaRequest)
  | publish (channel : String) (evento : Evento)
deriving DecidableEq, Repr

/-- The state around the handlers: the globals `db`, `redisClient` and
`jobQueue` (lines 56-60), and the log of the side effects performed so far. -/
structure World where
  db : DB
  redis : Redis
  jobQueue : List VendaRequest
  log : List Effect
deriving DecidableEq, Repr

/-- The state at process start: empty table, empty cache, empty queue. -/
def World.init : World := ⟨⟨[], 1⟩, [], [], []⟩

/-- The functions `json.Marshal` and `json.Unmarshal` at type `[]VendaCompleta`
(`none` is a returned error). -/
structure Codec where
  marshal : List VendaCompleta → Option Text
  unmarshal : Text → Option (List VendaCompleta)

/-- The package `encoding/json` on the structs of lines 21-47: `Marshal` fails
on a `float64` that is not finite, `Unmarshal` on a text that is not a JSON
array of objects or whose members do not fit the fields. -/
def encodingJSON : Codec where
  marshal l := (marshalVendas l).map Text.array
  unmarshal s :=
    match s with
    | .array items => unmarshalVendas items
    | .other _ => none

/-- Redis `GET`: `none` is a miss. -/
def Redis.get (r : Redis) (key : String) : Option Text :=
  match r with
  | [] => none
  | (k, e) :: rest => if k = key then some e.value else Redis.get rest key

/-- Redis `DEL`. -/
def Redis.del (r : Redis) (key : String) : Redis :=
  match r with
  | [] => []
  | (k, e) :: rest => if k = key then Redis.del rest key else (k, e) :: Redis.del rest key

/-- Redis `SET` with an expiration. -/
def Redis.set (r : Redis) (key : String) (value : Text) (expiration : Nat) : Redis :=
  (key, ⟨value, expiration⟩) :: Redis.del r key

/-- The function `getFromCache`; `fails` says whether the cache refuses the
`GET`.  A miss is an error too (`redis.Nil`). -/
def getFromCache (fails : Bool) (w : World) (key : String) : Except String Text :=
  if fails then .error "redis: connection refused"
  else
    match Redis.get w.redis key with
    | none => .error "redis: nil"
    | some s => .ok s

/-- The function `setCache`; `fails` says whether the cache refuses the `SET`,
in which case the key is left as it was. -/
def setCache (json : Codec) (fails : Bool) (w : World) (key : String)
    (value : List VendaCompleta) (expiration : Nat) : World × Except String Unit :=
  match json.marshal value with
  | none => (w, .error "json: unsupported value")
  | some jsonData =>
    if fails then
      ({ w with log := w.log ++ [.cacheSet key jsonData expiration] },
        .error "redis: connection refused")
    else
      ({ w with redis := Redis.set w.redis key jsonData expiration,
                log := w.log ++ [.cacheSet key jsonData expiration] }, .ok ())

/-- Whether row `a` may precede row `b` under `ORDER BY data_venda DESC`
(`NULL` sorts last). -/
def Row.before (a b : Row) : Prop :=
  match a.data_venda, b.data_venda with
  | _, none => True
  | none, some _ => False
  | some x, some y => y ≤ x

instance : DecidableRel Row.before := fun a b => by
  unfold Row.before
  cases a.data_venda <;> cases b.data_venda <;> infer_instance

instance : IsTotal Row Row.before where
  total a b := by
    unfold Row.before
    cases a.data_venda <;> cases b.data_venda <;> simp
    exact le_total _ _

instance : IsTrans Row Row.before where
  trans a b c h1 h2 := by
    unfold Row.before at *
    cases ha : a.data_venda <;> cases hb : b.data_venda <;> cases hc : c.data_venda <;>
      simp_all
    exact le_trans h2 h1

/-- The call `db.Query("SELECT ... FROM vendas ORDER BY data_venda DESC")`;
`fails` says whether the store returns an error. -/
def dbQuery (fails : Bool) (w : World) : Except String (List Row) :=
  if fails then .error "sql: query failed"
  else .ok (w.db.vendas.insertionSort Row.before)

/-- The call `db.Exec("INSERT INTO vendas ...")` followed by `LastInsertId`;
`fails` says whether the store returns an error, in which case nothing is
written. -/
def dbExec (fails : Bool) (w : World) (cliente_id produto_id quantidade : Int)
    (valor_total : Float64) (data_venda : Time) : Except String (Int × World) :=
  if fails then .error "sql: exec failed"
  else
    let id := w.db.autoIncrement
    .ok (id, { w with
      db := ⟨w.db.vendas ++ [⟨id, cliente_id, produto_id, quantidade, valor_total, some data_venda⟩],
             id + 1⟩,
      log := w.log ++ [.dbInsert cliente_id produto_id quantidade valor_total data_venda] })

/-- The call `rows.Scan` into a `Venda` (line 156): a `NULL` timestamp cannot
be stored in a `time.Time`. -/
def scan (r : Row) : Except String Venda :=
  match r.data_venda with
  | none => .error "sql: Scan error"
  | some t => .ok ⟨r.id, r.cliente_id, r.produto_id, r.quantidade, r.valor_total, t⟩

/-- The loop over `rows` (lines 153-160): rows that fail to scan are skipped. -/
def scanRows : List Row → List Venda
  | [] => []
  | r :: rest =>
    match scan r with
    | .error _ => scanRows rest
    | .ok v => v :: scanRows rest

/-- Capacity of `jobQueue` (line 59). -/
def jobQueueCap : Nat := 100

/-- The send `jobQueue <- job` on the buffered channel: `none` when the buffer
is full and the sender has to wait. -/
def chanSend (q : List VendaRequest) (job : VendaRequest) : Option (List VendaRequest) :=
  if q.length < jobQueueCap then some (q ++ [job]) else none

/-! ## Responses -/

/-- The JSON bodies written by the handlers (`gin.H`). -/
inductive Body where
  | error (msg : String)
  | data (venda : VendaCompleta)
  | list (data : List VendaCompleta) (source : String)
deriving DecidableEq, Repr

/-- An HTTP response: status code and body. -/
structure Response where
  status : Nat
  body : Body
deriving DecidableEq, Repr

/-- How a call of `criarVenda` stands: it has responded, or it waits at the
send of line 225 with the order it is going to return. -/
inductive Outcome where
  | responded (r : Response)
  | blocked (venda : VendaCompleta) (vendaReq : VendaRequest)
deriving DecidableEq, Repr

/-! ## Read path: `listarVendas` (lines 136-182) -/

/-- A goroutine of the fan-out with the slot it writes: the order `v` it was
started with, the number `pc` of assignments it has made, and
`vendasCompletas[i]`. -/
structure Task where
  v : Venda
  pc : Nat
  slot : VendaCompleta
deriving DecidableEq, Repr

/-- The assignment number `pc` of the goroutine body (lines 169-175). -/
def taskStep (v : Venda) (pc : Nat) (slot : VendaCompleta) : VendaCompleta :=
  match pc with
  | 0 => { slot with Venda := v }
  | 1 =>
    match buscarCliente v.ClienteID with
    | .ok c => { slot with Cliente := c }
    | .error _ => slot
  | 2 =>
    match buscarProduto v.ProdutoID with
    | .ok p => { slot with Produto := p }
    | .error _ => slot
  | _ => slot

/-- The goroutine advances by one assignment. -/
def Task.step (t : Task) : Task := ⟨t.v, t.pc + 1, taskStep t.v t.pc t.slot⟩

/-- The goroutine runs to its end. -/
def Task.finish (t : Task) : VendaCompleta :=
  match t.pc with
  | 0 => taskStep t.v 2 (taskStep t.v 1 (taskStep t.v 0 t.slot))
  | 1 => taskStep t.v 2 (taskStep t.v 1 t.slot)
  | 2 => taskStep t.v 2 t.slot
  | _ => t.slot

/-- Goroutine number `i` advances by one assignment; the others stand still. -/
def stepAt : List Task → Nat → List Task
  | [], _ => []
  | t :: ts, 0 => t.step :: ts
  | t :: ts, i + 1 => t :: stepAt ts i

/-- The fan-out of lines 163-178: one goroutine per order starts on a zero
slot, the goroutines advance in the order `sched` picks them, and `wg.Wait()`
returns once every goroutine has run to its end. -/
def fanOut (vendas : List Venda) (sched : List Nat) : List VendaCompleta :=
  ((sched.foldl stepAt (vendas.map fun v => ⟨v, 0, VendaCompleta.zero⟩)).map Task.finish)

/-- The body of one goroutine run on its own: the enrichment of one order. -/
def enriquecer (v : Venda) : VendaCompleta :=
  Task.finish ⟨v, 0, VendaCompleta.zero⟩

/-- What the environment decides during a call of `listarVendas`: whether the
query fails, the interleaving of the goroutines, and whether the cache refuses
the `GET` of line 137 and the `SET` of line 180. -/
structure ListEnv where
  queryFails : Bool
  sched : List Nat
  getFails : Bool
  setFails : Bool

/-- Lines 146-181 of `listarVendas`: the listing read from the store. -/
def listarVendasStore (json : Codec) (env : ListEnv) (w : World) : World × Response :=
  match dbQuery env.queryFails w with
  | .error _ => (w, ⟨500, Body.error "Erro ao buscar vendas"⟩)
  | .ok rows =>
    let vendas := scanRows rows
    let vendasCompletas := fanOut vendas env.sched
    let w1 := (setCache json env.setFails w "vendas:all" vendasCompletas 300000000000).1
    (w1, ⟨200, Body.list vendasCompletas "database"⟩)

/-- The handler `listarVendas`. -/
def listarVendas (json : Codec) (env : ListEnv) (w : World) : World × Response :=
  match getFromCache env.getFails w "vendas:all" with
  | .ok cached =>
    match json.unmarshal cached with
    | some vendas => (w, ⟨200, Body.list vendas "cache"⟩)
    | none => listarVendasStore json env w
  | .error _ => listarVendasStore json env w

/-- The listing a store-sourced read of `listarVendas` builds from the table:
the rows in query order, scanned, each enriched on its own. -/
def listagem (w : World) : List VendaCompleta :=
  (scanRows (w.db.vendas.insertionSort Row.before)).map enriquecer

/-! ## Write path: `criarVenda` (lines 184-231) -/

/-- The call `c.ShouldBindJSON(&vendaReq)`.  `body` is the request body as
`encoding/json` decodes it into a `VendaRequest` (`none`: it does not decode;
a field the body leaves out is left at zero).  The `binding:"required"` tag of
lines 50-52 then rejects a field that holds its zero value. -/
def shouldBindJSON (body : Option VendaRequest) : Except String VendaRequest :=
  match body with
  | none => .error "invalid character"
  | some r =>
    if r.ClienteID = 0 ∨ r.ProdutoID = 0 ∨ r.Quantidade = 0 then
      .error "Field validation failed on the required tag"
    else .ok r

/-- What the environment decides during a call of `criarVenda`: whether the
insert fails, the two readings of `time.Now()` (lines 205 and 219), and
whether the cache refuses the `DEL` of line 228. -/
structure CreateEnv where
  execFails : Bool
  now1 : Time
  now2 : Time
  delFails : Bool

/-- Lines 225-230 of `criarVenda`: the send on `jobQueue`, then the `DEL` of the
listing key, whose result is discarded, and the `201` response; `delFails`
says whether the cache refuses the `DEL`, in which case the key is left as it
was.  With a full buffer the call waits at the send; it runs this part again
once it is woken. -/
def criarVendaSend (delFails : Bool) (w : World) (venda : VendaCompleta)
    (vendaReq : VendaRequest) : World × Outcome :=
  match chanSend w.jobQueue vendaReq with
  | none => (w, .blocked venda vendaReq)
  | some q =>
    let w1 : World := { w with jobQueue := q, log := w.log ++ [Effect.enqueue vendaReq] }
    let w2 : World :=
      { w1 with redis := if delFails then w1.redis else Redis.del w1.redis "vendas:all",
                log := w1.log ++ [Effect.cacheDel "vendas:all"] }
    (w2, .responded ⟨201, Body.data venda⟩)

/-- The handler `criarVenda`. -/
def criarVenda (env : CreateEnv) (w : World) (body : Option VendaRequest) : World × Outcome :=
  match shouldBindJSON body with
  | .error _ => (w, .responded ⟨400, Body.error "Dados inválidos"⟩)
  | .ok vendaReq =>
    match buscarCliente vendaReq.ClienteID with
    | .error _ => (w, .responded ⟨400, Body.error "Cliente não encontrado"⟩)
    | .ok cliente =>
      match buscarProduto vendaReq.ProdutoID with
      | .error _ => (w, .responded ⟨400, Body.error "Produto não encontrado"⟩)
      | .ok produto =>
        let valorTotal := Float64.mul produto.Valor (Float64.ofInt vendaReq.Quantidade)
        match dbExec env.execFails w vendaReq.ClienteID vendaReq.ProdutoID
            vendaReq.Quantidade valorTotal env.now1 with
        | .error _ => (w, .responded ⟨500, Body.error "Erro ao criar venda"⟩)
        | .ok (id, w1) =>
          let venda : VendaCompleta :=
            { Venda := ⟨id, vendaReq.ClienteID, vendaReq.ProdutoID, vendaReq.Quantidade,
                        valorTotal, env.now2⟩,
              Cliente := cliente,
              Produto := produto }
          criarVendaSend env.delFails w1 venda vendaReq

/-! ## Workers (lines 104-129, 267-270) -/

/-- The identifiers of the workers started by `main`. -/
def workers : List Nat := [1, 2, 3]

/-- The function `processarVenda`: the event is published on `venda:processada`. -/
def processarVenda (w : World) (vendaReq : VendaRequest) (now : Time) : World :=
  { w with log := w.log ++
      [.publish "venda:processada"
        ⟨"venda_processada", vendaReq.ClienteID, vendaReq.ProdutoID, now⟩] }

/-- One turn of the loop of `startWorker` for worker `id`: it receives the job
at the head of the queue and processes it; with an empty queue it waits
(`none`). -/
def workerStep (id : Nat) (now : Time) (w : World) : Option World :=
  match w.jobQueue with
  | [] => none
  | job :: rest =>
    some (processarVenda { w with jobQueue := rest, log := w.log ++ [.dequeue id job] } job now)

/-- What can happen next in the running service. -/
inductive Action where
  | criar (env : CreateEnv) (body : Option VendaRequest)
  | retomar (delFails : Bool) (venda : VendaCompleta) (vendaReq : VendaRequest)
  | listar (env : ListEnv)
  | trabalhar (id : Nat) (now : Time)

/-- The service takes one action: a `POST /vendas`, a waiting `criarVenda`
woken at its send, a `GET /vendas`, or a turn of one of the started workers. -/
def step (json : Codec) (w : World) : Action → World
  | .criar env body => (criarVenda env w body).1
  | .retomar delFails venda vendaReq => (criarVendaSend delFails w venda vendaReq).1
  | .listar env => (listarVendas json env w).1
  | .trabalhar id now =>
    if id ∈ workers then
      match workerStep id now w with
      | some w1 => w1
      | none => w
    else w

/-- The service takes the actions of `as` in turn. -/
def run (json : Codec) (w : World) (as : List Action) : World :=
  as.foldl (step json) w

/-- The jobs sent on `jobQueue`, in the order of the sends. -/
def sent : List Effect → List VendaRequest
  | [] => []
  | .enqueue job :: rest => job :: sent rest
  | _ :: rest => sent rest

/-- The jobs received from `jobQueue`, in the order of the receptions, each
with the worker that received it. -/
def received : List Effect → List (Nat × VendaRequest)
  | [] => []
  | .dequeue id job :: rest => (id, job) :: received rest
  | _ :: rest => received rest


/-- The state of the job queue agrees with the log: the buffer holds at most
`jobQueueCap` jobs, the jobs sent are the jobs received followed by the jobs
still in the buffer, and every reception is by one of the started workers. -/
def QueueInv (w : World) : Prop :=
  w.jobQueue.length ≤ jobQueueCap ∧
  sent w.log = (received w.log).map Prod.snd ++ w.jobQueue ∧
  ∀ x ∈ received w.log, x.1 ∈ workers

/-! ## Exact products -/

theorem bitLengthAux_zero (fuel : Nat) : bitLengthAux fuel 0 = 0 := by
  cases fuel <;> rfl

/-- With enough fuel, `bitLengthAux` returns the `b` with `2^(b-1) ≤ n < 2^b`. -/
theorem bitLengthAux_bounds (fuel n : Nat) (h : n ≤ fuel) :
    n < 2 ^ bitLengthAux fuel n ∧ (n ≠ 0 → 2 ^ (bitLengthAux fuel n - 1) ≤ n) := by
  induction fuel generalizing n with
  | zero =>
    have : n = 0 := by omega
    subst this
    exact ⟨by decide, fun h => absurd rfl h⟩
  | succ fuel ih =>
    by_cases hn : n = 0
    · subst hn
      exact ⟨by simp [bitLengthAux], fun h => absurd rfl h⟩
    · have hstep : bitLengthAux (fuel + 1) n = bitLengthAux fuel (n / 2) + 1 := by
        simp [bitLengthAux, hn]
      obtain ⟨h1, h2⟩ := ih (n / 2) (by omega)
      rw [hstep]
      refine ⟨?_, fun _ => ?_⟩
      · rw [pow_succ]
        omega
      · rw [Nat.add_sub_cancel]
        by_cases hh : n / 2 = 0
        · rw [hh, bitLengthAux_zero]
          simp only [pow_zero]
          omega
        · have h3 := h2 hh
          have hpos : bitLengthAux fuel (n / 2) ≠ 0 := by
            intro h0
            rw [h0] at h1
            simp only [pow_zero] at h1
            omega
          obtain ⟨b, hb⟩ := Nat.exists_eq_succ_of_ne_zero hpos
          rw [hb] at h3 ⊢
          rw [Nat.succ_sub_one] at h3
          rw [Nat.succ_eq_add_one, pow_succ]
          omega

theorem bitLength_bounds (n : Nat) (hn : n ≠ 0) :
    2 ^ (bitLength n - 1) ≤ n ∧ n < 2 ^ bitLength n :=
  ⟨(bitLengthAux_bounds n n (Nat.le_refl n)).2 hn, (bitLengthAux_bounds n n (Nat.le_refl n)).1⟩

theorem bitLength_pos (n : Nat) (hn : n ≠ 0) : 1 ≤ bitLength n := by
  have h := (bitLength_bounds n hn).2
  by_contra hc
  have h0 : bitLength n = 0 := by omega
  rw [h0] at h
  simp only [pow_zero] at h
  omega

theorem bitLength_unique (n b : Nat) (hb : 1 ≤ b) (h1 : 2 ^ (b - 1) ≤ n) (h2 : n < 2 ^ b) :
    bitLength n = b := by
  have hn : n ≠ 0 := by
    have : 0 < 2 ^ (b - 1) := Nat.two_pow_pos _
    omega
  obtain ⟨g1, g2⟩ := bitLength_bounds n hn
  have hp := bitLength_pos n hn
  have ha : bitLength n - 1 < b := (Nat.pow_lt_pow_iff_right (by decide : 1 < 2)).mp
    (Nat.lt_of_le_of_lt g1 h2)
  have hb2 : b - 1 < bitLength n := (Nat.pow_lt_pow_iff_right (by decide : 1 < 2)).mp
    (Nat.lt_of_le_of_lt h1 g2)
  omega

theorem bitLength_mul_pow (m k : Nat) (hm : m ≠ 0) :
    bitLength (m * 2 ^ k) = bitLength m + k := by
  obtain ⟨g1, g2⟩ := bitLength_bounds m hm
  have hp := bitLength_pos m hm
  apply bitLength_unique
  · omega
  · have : bitLength m + k - 1 = (bitLength m - 1) + k := by omega
    rw [this, pow_add]
    exact Nat.mul_le_mul_right _ g1
  · rw [pow_add]
    exact Nat.mul_lt_mul_of_pos_right g2 (Nat.two_pow_pos _)

theorem bitLength_le_of_lt (m b : Nat) (hm : m ≠ 0) (h : m < 2 ^ b) : bitLength m ≤ b := by
  obtain ⟨g1, -⟩ := bitLength_bounds m hm
  have hp := bitLength_pos m hm
  have : bitLength m - 1 < b := (Nat.pow_lt_pow_iff_right (by decide : 1 < 2)).mp
    (Nat.lt_of_le_of_lt g1 h)
  omega

/-- A multiple of `2^sh` is divided without rounding. -/
theorem roundShift_exact (q sh : Nat) : roundShift (q * 2 ^ sh) sh = q := by
  have hpos : 0 < 2 ^ sh := Nat.two_pow_pos _
  have hhalf : 0 < 2 ^ (sh - 1) := Nat.two_pow_pos _
  have hr : q * 2 ^ sh % 2 ^ sh = 0 := Nat.mul_mod_left q (2 ^ sh)
  have hq : q * 2 ^ sh / 2 ^ sh = q := Nat.mul_div_cancel q hpos
  unfold roundShift
  simp only [hr, hq]
  rw [if_neg]
  rintro (h | ⟨h, -⟩) <;> omega

theorem pack_small (neg : Bool) (mant : Nat) (ulp : Int) (h0 : mant ≠ 0)
    (h1 : mant < 2 ^ 53) (h2 : ulp ≤ 971) : pack neg mant ulp = .finite neg mant ulp := by
  unfold pack
  rw [if_neg h0, if_neg (by omega), if_neg (by omega)]

/-- A value `m * 2^k * 2^(-k)` with `m < 2^53` is representable: rounding returns
it unchanged, in the canonical encoding of `m`. -/
theorem roundBinary64_exact (neg : Bool) (m k : Nat) (hm : m ≠ 0) (hlt : m < 2 ^ 53) :
    roundBinary64 neg (m * 2 ^ k) (-(k : Int)) =
      .finite neg (m * 2 ^ (53 - bitLength m)) ((bitLength m : Int) - 53) := by
  have hp := bitLength_pos m hm
  have hle := bitLength_le_of_lt m 53 hm hlt
  have hpow : 0 < 2 ^ k := Nat.two_pow_pos _
  have hmk : m * 2 ^ k ≠ 0 := Nat.mul_ne_zero hm (by omega)
  have hulp : ulpExp (m * 2 ^ k) (-(k : Int)) = (bitLength m : Int) - 53 := by
    unfold ulpExp
    rw [bitLength_mul_pow m k hm]
    push_cast
    omega
  have hmant : m * 2 ^ (53 - bitLength m) < 2 ^ 53 := by
    have h2 := (bitLength_bounds m hm).2
    calc m * 2 ^ (53 - bitLength m) < 2 ^ bitLength m * 2 ^ (53 - bitLength m) :=
          Nat.mul_lt_mul_of_pos_right h2 (Nat.two_pow_pos _)
      _ = 2 ^ 53 := by rw [← pow_add]; congr 1; omega
  have hmant0 : m * 2 ^ (53 - bitLength m) ≠ 0 :=
    Nat.mul_ne_zero hm (Nat.pos_iff_ne_zero.mp (Nat.two_pow_pos _))
  unfold roundBinary64
  rw [if_neg hmk, hulp]
  by_cases hcase : (bitLength m : Int) - 53 ≤ -(k : Int)
  · rw [if_pos hcase]
    have hexp : (-(k : Int) - ((bitLength m : Int) - 53)).toNat = 53 - bitLength m - k := by
      omega
    rw [hexp, Nat.mul_assoc, ← pow_add]
    have : k + (53 - bitLength m - k) = 53 - bitLength m := by omega
    rw [this]
    exact pack_small neg _ _ hmant0 hmant (by omega)
  · rw [if_neg hcase]
    have hexp : ((bitLength m : Int) - 53 - -(k : Int)).toNat = k - (53 - bitLength m) := by
      omega
    have hsplit : m * 2 ^ k = m * 2 ^ (53 - bitLength m) * 2 ^ (k - (53 - bitLength m)) := by
      rw [Nat.mul_assoc, ← pow_add]
      congr 2
      omega
    rw [hexp]
    nth_rewrite 1 [hsplit]
    rw [roundShift_exact]
    exact pack_small neg _ _ hmant0 hmant (by omega)

/-- The conversion `float64(z)` is exact for `|z| < 2^53`. -/
theorem Float64.ofInt_eq (z : Int) (hz : z ≠ 0) (hlt : z.natAbs < 2 ^ 53) :
    Float64.ofInt z =
      .finite (decide (z < 0)) (z.natAbs * 2 ^ (53 - bitLength z.natAbs))
        ((bitLength z.natAbs : Int) - 53) := by
  have h := roundBinary64_exact (decide (z < 0)) z.natAbs 0 (by omega) hlt
  simpa [Float64.ofInt] using h

/-- The `float64` product of two integers is the `float64` of their product as
long as that product stays below `2^53` in magnitude. -/
theorem Float64.mul_ofInt (a b : Int) (ha : a ≠ 0) (hb : b ≠ 0)
    (hlt : (a * b).natAbs < 2 ^ 53) :
    Float64.mul (Float64.ofInt a) (Float64.ofInt b) = Float64.ofInt (a * b) := by
  have hab : a * b ≠ 0 := Int.mul_ne_zero ha hb
  have hna : a.natAbs ≠ 0 := by omega
  have hnb : b.natAbs ≠ 0 := by omega
  have hmul : (a * b).natAbs = a.natAbs * b.natAbs := Int.natAbs_mul a b
  have hla : a.natAbs < 2 ^ 53 := by
    have : a.natAbs ≤ a.natAbs * b.natAbs := Nat.le_mul_of_pos_right _ (by omega)
    omega
  have hlb : b.natAbs < 2 ^ 53 := by
    have : b.natAbs ≤ a.natAbs * b.natAbs := Nat.le_mul_of_pos_left _ (by omega)
    omega
  have hpa := bitLength_le_of_lt a.natAbs 53 hna hla
  have hpb := bitLength_le_of_lt b.natAbs 53 hnb hlb
  rw [Float64.ofInt_eq a ha hla, Float64.ofInt_eq b hb hlb, Float64.ofInt_eq (a * b) hab hlt]
  show roundBinary64 _ _ _ = _
  have hm : a.natAbs * 2 ^ (53 - bitLength a.natAbs) *
      (b.natAbs * 2 ^ (53 - bitLength b.natAbs)) =
      (a * b).natAbs * 2 ^ ((53 - bitLength a.natAbs) + (53 - bitLength b.natAbs)) := by
    rw [hmul, pow_add]
    ring
  have he : ((bitLength a.natAbs : Int) - 53) + ((bitLength b.natAbs : Int) - 53) =
      -(((53 - bitLength a.natAbs) + (53 - bitLength b.natAbs) : Nat) : Int) := by
    omega
  rw [hm, he, roundBinary64_exact _ _ _ (by omega) hlt]
  congr 1
  rcases Int.lt_or_gt_of_ne ha with h1 | h1 <;> rcases Int.lt_or_gt_of_ne hb with h2 | h2
  · have : ¬ a * b < 0 := not_lt.mpr (Int.le_of_lt (Int.mul_pos_of_neg_of_neg h1 h2))
    simp [h1, h2, this]
  · have : a * b < 0 := Int.mul_neg_of_neg_of_pos h1 h2
    simp [h1, this, not_lt.mpr (Int.le_of_lt h2)]
  · have : a * b < 0 := Int.mul_neg_of_pos_of_neg h1 h2
    simp [h2, this, not_lt.mpr (Int.le_of_lt h1)]
  · have : ¬ a * b < 0 := not_lt.mpr (Int.le_of_lt (Int.mul_pos h1 h2))
    simp [this, not_lt.mpr (Int.le_of_lt h1), not_lt.mpr (Int.le_of_lt h2)]

/-- For `|z| < 2^53` the value `float64(z)` stands for `z`. -/
theorem Float64.toRat_ofInt (z : Int) (hlt : z.natAbs < 2 ^ 53) :
    (Float64.ofInt z).toRat = some (z : ℚ) := by
  by_cases hz : z = 0
  · subst hz
    simp [Float64.ofInt, roundBinary64, Float64.toRat]
  · have hne : z.natAbs ≠ 0 := by omega
    have hle := bitLength_le_of_lt z.natAbs 53 hne hlt
    rw [Float64.ofInt_eq z hz hlt]
    simp only [Float64.toRat, Option.some.injEq]
    have hexp : ((bitLength z.natAbs : Int) - 53) = -((53 - bitLength z.natAbs : Nat) : Int) := by
      omega
    rw [hexp, zpow_neg, zpow_natCast]
    push_cast
    have h2 : ((2 : ℚ) ^ (53 - bitLength z.natAbs)) ≠ 0 := pow_ne_zero _ (by norm_num)
    have hcast : ((z.natAbs : ℕ) : ℚ) = |(z : ℚ)| := by
      rw [Nat.cast_natAbs, Int.cast_abs]
    rw [hcast]
    rcases Int.lt_or_gt_of_ne hz with h | h
    · have hq : (z : ℚ) < 0 := by exact_mod_cast h
      simp only [h, decide_True, if_true, abs_of_neg hq]
      field_simp
    · have hq : (0 : ℚ) < z := by exact_mod_cast h
      have hn : ¬ z < 0 := not_lt.mpr (Int.le_of_lt h)
      simp only [hn, decide_False, Bool.false_eq_true, if_false, abs_of_pos hq]
      field_simp

/-! ## JSON round trip -/

theorem buscarCliente_eq (id : Int) :
    buscarCliente id =
      if id = 1 then .ok ⟨1, "João", "99999-0001"⟩
      else if id = 2 then .ok ⟨2, "Maria", "99999-0002"⟩
      else .error "cliente não encontrado" := by
  by_cases h1 : id = 1
  · subst h1; rfl
  · by_cases h2 : id = 2
    · subst h2; rfl
    · have e1 : (id == 1) = false := by simpa using h1
      have e2 : (id == 2) = false := by simpa using h2
      simp [buscarCliente, clientes, List.lookup, h1, h2, e1, e2]

theorem buscarProduto_eq (id : Int) :
    buscarProduto id =
      if id = 1 then .ok ⟨1, "Produto A", "Descrição A", Float64.ofInt 10⟩
      else if id = 2 then .ok ⟨2, "Produto B", "Descrição B", Float64.ofInt 20⟩
      else .error "produto não encontrado" := by
  by_cases h1 : id = 1
  · subst h1; rfl
  · by_cases h2 : id = 2
    · subst h2; rfl
    · have e1 : (id == 1) = false := by simpa using h1
      have e2 : (id == 2) = false := by simpa using h2
      simp [buscarProduto, produtos, List.lookup, h1, h2, e1, e2]

theorem buscarCliente_ok_iff (id : Int) :
    (∃ c, buscarCliente id = .ok c) ↔ (id = 1 ∨ id = 2) := by
  rw [buscarCliente_eq]
  by_cases h1 : id = 1
  · simp [h1]
  · by_cases h2 : id = 2
    · simp [h2]
    · simp [h1, h2]

theorem buscarProduto_ok_iff (id : Int) :
    (∃ p, buscarProduto id = .ok p) ↔ (id = 1 ∨ id = 2) := by
  rw [buscarProduto_eq]
  by_cases h1 : id = 1
  · simp [h1]
  · by_cases h2 : id = 2
    · simp [h2]
    · simp [h1, h2]

theorem buscarCliente_ID {id : Int} {c : Cliente} (h : buscarCliente id = .ok c) :
    c.ID = id := by
  rw [buscarCliente_eq] at h
  by_cases h1 : id = 1
  · simp [h1] at h; rw [← h, h1]
  · by_cases h2 : id = 2
    · simp [h2] at h; rw [← h, h2]
    · simp [h1, h2] at h

theorem buscarProduto_ID {id : Int} {p : Produto} (h : buscarProduto id = .ok p) :
    p.ID = id := by
  rw [buscarProduto_eq] at h
  by_cases h1 : id = 1
  · simp [h1] at h; rw [← h, h1]
  · by_cases h2 : id = 2
    · simp [h2] at h; rw [← h, h2]
    · simp [h1, h2] at h

theorem Float64.mul_ofInt_toRat (n q : Int) (hn : n ≠ 0) (hn53 : n.natAbs < 2 ^ 53)
    (hlt : (n * q).natAbs < 2 ^ 53) :
    (Float64.mul (Float64.ofInt n) (Float64.ofInt q)).toRat = some ((n : ℚ) * (q : ℚ)) := by
  by_cases hq : q = 0
  · subst hq
    rw [Float64.ofInt_eq n hn hn53]
    simp [Float64.ofInt, Float64.mul, roundBinary64, Float64.toRat]
  · rw [Float64.mul_ofInt n q hn hq hlt, Float64.toRat_ofInt (n * q) hlt]
    push_cast
    rfl

theorem buscarProduto_Valor {id : Int} {p : Produto} (h : buscarProduto id = .ok p) :
    p.Valor = Float64.ofInt 10 ∨ p.Valor = Float64.ofInt 20 := by
  rw [buscarProduto_eq] at h
  by_cases h1 : id = 1
  · simp [h1] at h; rw [← h]; exact Or.inl rfl
  · by_cases h2 : id = 2
    · simp [h2] at h; rw [← h]; exact Or.inr rfl
    · simp [h1, h2] at h

theorem natAbs_lt_of_abs_cast_lt (z : Int) (h : |(z : ℚ)| < 2 ^ 53) : z.natAbs < 2 ^ 53 := by
  have h1 : |z| < 2 ^ 53 := by exact_mod_cast h
  rw [Int.abs_eq_natAbs] at h1
  exact_mod_cast h1

/-- For a product of the table, the total of line 202 stands for the exact
product of unit value and quantity whenever that product is below `2^53` in
magnitude. -/
theorem valorTotal_exact {id : Int} {p : Produto} (q : Int) (h : buscarProduto id = .ok p) :
    ∃ u : ℚ, 0 < u ∧ p.Valor.toRat = some u ∧
      (|u * (q : ℚ)| < 2 ^ 53 →
        (Float64.mul p.Valor (Float64.ofInt q)).toRat = some (u * (q : ℚ))) := by
  rcases buscarProduto_Valor h with hv | hv
  · refine ⟨10, by norm_num, ?_, ?_⟩
    · rw [hv]
      exact Float64.toRat_ofInt 10 (by decide)
    · intro hlt
      rw [hv]
      have h2 : |(((10 * q : Int)) : ℚ)| < 2 ^ 53 := by push_cast; exact hlt
      exact Float64.mul_ofInt_toRat 10 q (by decide) (by decide)
        (natAbs_lt_of_abs_cast_lt _ h2)
  · refine ⟨20, by norm_num, ?_, ?_⟩
    · rw [hv]
      exact Float64.toRat_ofInt 20 (by decide)
    · intro hlt
      rw [hv]
      have h2 : |(((20 * q : Int)) : ℚ)| < 2 ^ 53 := by push_cast; exact hlt
      exact Float64.mul_ofInt_toRat 20 q (by decide) (by decide)
        (natAbs_lt_of_abs_cast_lt _ h2)

/-! ## Sign of a product -/

/-- Running a goroutine to its end gives the same slot before and after one of
its steps. -/
theorem Task.finish_step (t : Task) : t.step.finish = t.finish := by
  obtain ⟨v, pc, slot⟩ := t
  match pc with
  | 0 => rfl
  | 1 => rfl
  | 2 => rfl
  | n + 3 => rfl

theorem map_finish_stepAt (ts : List Task) (i : Nat) :
    (stepAt ts i).map Task.finish = ts.map Task.finish := by
  induction ts generalizing i with
  | nil => rfl
  | cons t ts ih =>
    cases i with
    | zero => simp [stepAt, Task.finish_step]
    | succ i => simp [stepAt, ih]

theorem map_finish_foldl (sched : List Nat) (ts : List Task) :
    (sched.foldl stepAt ts).map Task.finish = ts.map Task.finish := by
  induction sched generalizing ts with
  | nil => rfl
  | cons i sched ih => rw [List.foldl_cons, ih, map_finish_stepAt]

/-- Whatever the interleaving, the fan-out returns the enrichment of each order
on its own, in the order of the orders. -/
theorem fanOut_eq_map (vendas : List Venda) (sched : List Nat) :
    fanOut vendas sched = vendas.map enriquecer := by
  unfold fanOut
  rw [map_finish_foldl, List.map_map]
  rfl

theorem enriquecer_Venda (v : Venda) : (enriquecer v).Venda = v := by
  unfold enriquecer Task.finish
  simp only [taskStep]
  cases buscarCliente v.ClienteID <;> cases buscarProduto v.ProdutoID <;> rfl

theorem enriquecer_Cliente (v : Venda) :
    (enriquecer v).Cliente =
      match buscarCliente v.ClienteID with
      | .ok c => c
      | .error _ => Cliente.zero := by
  unfold enriquecer Task.finish
  simp only [taskStep]
  cases buscarCliente v.ClienteID <;> cases buscarProduto v.ProdutoID <;> rfl

theorem enriquecer_Produto (v : Venda) :
    (enriquecer v).Produto =
      match buscarProduto v.ProdutoID with
      | .ok p => p
      | .error _ => Produto.zero := by
  unfold enriquecer Task.finish
  simp only [taskStep]
  cases buscarCliente v.ClienteID <;> cases buscarProduto v.ProdutoID <;> rfl

/-! ## Cache -/

theorem listarVendasStore_fails (json : Codec) (env : ListEnv) (w : World)
    (hq : env.queryFails = true) :
    listarVendasStore json env w = (w, ⟨500, Body.error "Erro ao buscar vendas"⟩) := by
  simp [listarVendasStore, dbQuery, hq]

/-- A store-sourced read whose query succeeds answers `200` with the listing of
the table and tries to cache it. -/
theorem listarVendasStore_ok (json : Codec) (env : ListEnv) (w : World)
    (hq : env.queryFails = false) :
    listarVendasStore json env w =
      ((setCache json env.setFails w "vendas:all" (listagem w) 300000000000).1,
        ⟨200, Body.list (listagem w) "database"⟩) := by
  simp [listarVendasStore, dbQuery, hq, fanOut_eq_map, listagem]

theorem listarVendas_miss (json : Codec) (env : ListEnv) (w : World)
    (hmiss : Redis.get w.redis "vendas:all" = none) :
    listarVendas json env w = listarVendasStore json env w := by
  cases hg : env.getFails <;> simp [listarVendas, getFromCache, hmiss, hg]

theorem listarVendas_refused (json : Codec) (env : ListEnv) (w : World)
    (hg : env.getFails = true) :
    listarVendas json env w = listarVendasStore json env w := by
  simp [listarVendas, getFromCache, hg]

theorem listarVendas_hit (json : Codec) (env : ListEnv) (w : World) (s : Text)
    (l : List VendaCompleta) (hg : env.getFails = false)
    (hget : Redis.get w.redis "vendas:all" = some s)
    (hdec : json.unmarshal s = some l) :
    listarVendas json env w = (w, ⟨200, Body.list l "cache"⟩) := by
  simp [listarVendas, getFromCache, hg, hget, hdec]

theorem listarVendas_undecodable (json : Codec) (env : ListEnv) (w : World) (s : Text)
    (hget : Redis.get w.redis "vendas:all" = some s)
    (hdec : json.unmarshal s = none) :
    listarVendas json env w = listarVendasStore json env w := by
  cases hg : env.getFails <;> simp [listarVendas, getFromCache, hg, hget, hdec]

theorem dbQuery_sorted (w : World) (rows : List Row) (fails : Bool)
    (h : dbQuery fails w = .ok rows) : rows.Sorted Row.before ∧ rows.Perm w.db.vendas := by
  cases fails with
  | true => simp [dbQuery] at h
  | false =>
    simp only [dbQuery, Bool.false_eq_true, if_false, Except.ok.injEq] at h
    rw [← h]
    exact ⟨List.sorted_insertionSort Row.before _, List.perm_insertionSort Row.before _⟩

theorem mem_scanRows {rows : List Row} {r : Row} {t : Time} (hr : r ∈ rows)
    (ht : r.data_venda = some t) :
    (⟨r.id, r.cliente_id, r.produto_id, r.quantidade, r.valor_total, t⟩ : Venda)
      ∈ scanRows rows := by
  induction rows with
  | nil => cases hr
  | cons x rest ih =>
    rcases List.mem_cons.mp hr with h | h
    · subst h
      simp [scanRows, scan, ht]
    · have := ih h
      unfold scanRows
      cases scan x <;> simp [this]

theorem mem_listagem {w : World} {r : Row} {t : Time} (hr : r ∈ w.db.vendas)
    (ht : r.data_venda = some t) :
    enriquecer ⟨r.id, r.cliente_id, r.produto_id, r.quantidade, r.valor_total, t⟩
      ∈ listagem w := by
  unfold listagem
  apply List.mem_map_of_mem
  apply mem_scanRows _ ht
  exact (List.perm_insertionSort Row.before w.db.vendas).mem_iff.mpr hr

/-! ## Write path -/

theorem criarVendaSend_room (d : Bool) (w : World) (venda : VendaCompleta)
    (vendaReq : VendaRequest) (h : w.jobQueue.length < jobQueueCap) :
    criarVendaSend d w venda vendaReq =
      ({ w with jobQueue := w.jobQueue ++ [vendaReq],
                redis := if d then w.redis else Redis.del w.redis "vendas:all",
                log := w.log ++ [Effect.enqueue vendaReq, Effect.cacheDel "vendas:all"] },
        .responded ⟨201, Body.data venda⟩) := by
  simp [criarVendaSend, chanSend, h]

theorem criarVendaSend_full (d : Bool) (w : World) (venda : VendaCompleta)
    (vendaReq : VendaRequest) (h : jobQueueCap ≤ w.jobQueue.length) :
    criarVendaSend d w venda vendaReq = (w, .blocked venda vendaReq) := by
  simp [criarVendaSend, chanSend, Nat.not_lt.mpr h]

theorem criarVenda_bind_error (env : CreateEnv) (w : World) (body : Option VendaRequest)
    (e : String) (hb : shouldBindJSON body = .error e) :
    criarVenda env w body = (w, .responded ⟨400, Body.error "Dados inválidos"⟩) := by
  simp [criarVenda, hb]

theorem criarVenda_cliente_error (env : CreateEnv) (w : World) (body : Option VendaRequest)
    (r : VendaRequest) (e : String) (hb : shouldBindJSON body = .ok r)
    (hc : buscarCliente r.ClienteID = .error e) :
    criarVenda env w body = (w, .responded ⟨400, Body.error "Cliente não encontrado"⟩) := by
  simp [criarVenda, hb, hc]

theorem criarVenda_produto_error (env : CreateEnv) (w : World) (body : Option VendaRequest)
    (r : VendaRequest) (c : Cliente) (e : String) (hb : shouldBindJSON body = .ok r)
    (hc : buscarCliente r.ClienteID = .ok c) (hp : buscarProduto r.ProdutoID = .error e) :
    criarVenda env w body = (w, .responded ⟨400, Body.error "Produto não encontrado"⟩) := by
  simp [criarVenda, hb, hc, hp]

theorem criarVenda_exec_error (env : CreateEnv) (w : World) (body : Option VendaRequest)
    (r : VendaRequest) (c : Cliente) (p : Produto) (hb : shouldBindJSON body = .ok r)
    (hc : buscarCliente r.ClienteID = .ok c) (hp : buscarProduto r.ProdutoID = .ok p)
    (hx : env.execFails = true) :
    criarVenda env w body = (w, .responded ⟨500, Body.error "Erro ao criar venda"⟩) := by
  simp [criarVenda, hb, hc, hp, dbExec, hx]

/-- The course of `criarVenda` for a request that binds and resolves when the
insert succeeds: `201` with room in the queue, waiting at the send otherwise. -/
theorem criarVenda_inserted (env : CreateEnv) (w : World) (body : Option VendaRequest)
    (r : VendaRequest) (c : Cliente) (p : Produto) (hb : shouldBindJSON body = .ok r)
    (hc : buscarCliente r.ClienteID = .ok c) (hp : buscarProduto r.ProdutoID = .ok p)
    (hx : env.execFails = false) :
    criarVenda env w body =
      if w.jobQueue.length < jobQueueCap then
        ({ db := ⟨w.db.vendas ++ [⟨w.db.autoIncrement, r.ClienteID, r.ProdutoID,
                      r.Quantidade, Float64.mul p.Valor (Float64.ofInt r.Quantidade),
                      some env.now1⟩],
                    w.db.autoIncrement + 1⟩,
             redis := if env.delFails then w.redis else Redis.del w.redis "vendas:all",
             jobQueue := w.jobQueue ++ [r],
             log := w.log ++ [Effect.dbInsert r.ClienteID r.ProdutoID r.Quantidade
                      (Float64.mul p.Valor (Float64.ofInt r.Quantidade)) env.now1,
                    Effect.enqueue r, Effect.cacheDel "vendas:all"] },
          .responded ⟨201, Body.data ⟨⟨w.db.autoIncrement, r.ClienteID, r.ProdutoID,
            r.Quantidade, Float64.mul p.Valor (Float64.ofInt r.Quantidade), env.now2⟩, c, p⟩⟩)
      else
        ({ w with
            db := ⟨w.db.vendas ++ [⟨w.db.autoIncrement, r.ClienteID, r.ProdutoID,
                      r.Quantidade, Float64.mul p.Valor (Float64.ofInt r.Quantidade),
                      some env.now1⟩],
                   w.db.autoIncrement + 1⟩,
            log := w.log ++ [Effect.dbInsert r.ClienteID r.ProdutoID r.Quantidade
                      (Float64.mul p.Valor (Float64.ofInt r.Quantidade)) env.now1] },
          .blocked ⟨⟨w.db.autoIncrement, r.ClienteID, r.ProdutoID, r.Quantidade,
            Float64.mul p.Valor (Float64.ofInt r.Quantidade), env.now2⟩, c, p⟩ r) := by
  by_cases hq : w.jobQueue.length < jobQueueCap
  · simp [criarVenda, hb, hc, hp, dbExec, hx, criarVendaSend, chanSend, hq]
  · simp [criarVenda, hb, hc, hp, dbExec, hx, criarVendaSend, chanSend, hq]

/-- A `201` from `criarVenda` comes only from the full course: bind, both
lookups, insert, send, deletion of the listing key. -/
theorem criarVenda_created (env : CreateEnv) (w w' : World) (body : Option VendaRequest)
    (resp : Response) (h : criarVenda env w body = (w', .responded resp))
    (hs : resp.status = 201) :
    ∃ r c p, shouldBindJSON body = .ok r ∧ buscarCliente r.ClienteID = .ok c ∧
      buscarProduto r.ProdutoID = .ok p ∧ env.execFails = false ∧
      w.jobQueue.length < jobQueueCap ∧
      resp = ⟨201, Body.data ⟨⟨w.db.autoIncrement, r.ClienteID, r.ProdutoID, r.Quantidade,
            Float64.mul p.Valor (Float64.ofInt r.Quantidade), env.now2⟩, c, p⟩⟩ ∧
      w' = { db := ⟨w.db.vendas ++ [⟨w.db.autoIncrement, r.ClienteID, r.ProdutoID,
                      r.Quantidade, Float64.mul p.Valor (Float64.ofInt r.Quantidade),
                      some env.now1⟩],
                    w.db.autoIncrement + 1⟩,
             redis := if env.delFails then w.redis else Redis.del w.redis "vendas:all",
             jobQueue := w.jobQueue ++ [r],
             log := w.log ++ [Effect.dbInsert r.ClienteID r.ProdutoID r.Quantidade
                      (Float64.mul p.Valor (Float64.ofInt r.Quantidade)) env.now1,
                    Effect.enqueue r, Effect.cacheDel "vendas:all"] } := by
  cases hb : shouldBindJSON body with
  | error e =>
    rw [criarVenda_bind_error env w body e hb] at h
    simp only [Prod.mk.injEq, Outcome.responded.injEq] at h
    rw [← h.2] at hs; simp at hs
  | ok r =>
    cases hc : buscarCliente r.ClienteID with
    | error e =>
      rw [criarVenda_cliente_error env w body r e hb hc] at h
      simp only [Prod.mk.injEq, Outcome.responded.injEq] at h
      rw [← h.2] at hs; simp at hs
    | ok c =>
      cases hp : buscarProduto r.ProdutoID with
      | error e =>
        rw [criarVenda_produto_error env w body r c e hb hc hp] at h
        simp only [Prod.mk.injEq, Outcome.responded.injEq] at h
        rw [← h.2] at hs; simp at hs
      | ok p =>
        cases hx : env.execFails with
        | true =>
          rw [criarVenda_exec_error env w body r c p hb hc hp hx] at h
          simp only [Prod.mk.injEq, Outcome.responded.injEq] at h
          rw [← h.2] at hs; simp at hs
        | false =>
          rw [criarVenda_inserted env w body r c p hb hc hp hx] at h
          by_cases hq : w.jobQueue.length < jobQueueCap
          · rw [if_pos hq] at h
            simp only [Prod.mk.injEq, Outcome.responded.injEq] at h
            exact ⟨r, c, p, rfl, hc, hp, rfl, hq, h.2.symm, h.1.symm⟩
          · rw [if_neg hq] at h
            simp at h

/-- A `criarVenda` that waits at the send has bound, resolved and inserted, and
found the queue full. -/
theorem criarVenda_blocked (env : CreateEnv) (w w' : World) (body : Option VendaRequest)
    (v : VendaCompleta) (r : VendaRequest) (h : criarVenda env w body = (w', .blocked v r)) :
    ∃ p, shouldBindJSON body = .ok r ∧ buscarProduto r.ProdutoID = .ok p ∧
      jobQueueCap ≤ w.jobQueue.length ∧
      w' = { w with
            db := ⟨w.db.vendas ++ [⟨w.db.autoIncrement, r.ClienteID, r.ProdutoID,
                      r.Quantidade, Float64.mul p.Valor (Float64.ofInt r.Quantidade),
                      some env.now1⟩],
                   w.db.autoIncrement + 1⟩,
            log := w.log ++ [Effect.dbInsert r.ClienteID r.ProdutoID r.Quantidade
                      (Float64.mul p.Valor (Float64.ofInt r.Quantidade)) env.now1] } := by
  cases hb : shouldBindJSON body with
  | error e =>
    rw [criarVenda_bind_error env w body e hb] at h
    simp at h
  | ok r0 =>
    cases hc : buscarCliente r0.ClienteID with
    | error e =>
      rw [criarVenda_cliente_error env w body r0 e hb hc] at h
      simp at h
    | ok c =>
      cases hp : buscarProduto r0.ProdutoID with
      | error e =>
        rw [criarVenda_produto_error env w body r0 c e hb hc hp] at h
        simp at h
      | ok p =>
        cases hx : env.execFails with
        | true =>
          rw [criarVenda_exec_error env w body r0 c p hb hc hp hx] at h
          simp at h
        | false =>
          rw [criarVenda_inserted env w body r0 c p hb hc hp hx] at h
          by_cases hq : w.jobQueue.length < jobQueueCap
          · rw [if_pos hq] at h
            simp at h
          · rw [if_neg hq] at h
            simp only [Prod.mk.injEq, Outcome.blocked.injEq] at h
            obtain ⟨hw, -, hr⟩ := h
            subst hr
            exact ⟨p, rfl, hp, Nat.not_lt.mp hq, hw.symm⟩

theorem criarVendaSend_responded (d : Bool) (w w' : World) (venda : VendaCompleta)
    (vendaReq : VendaRequest) (resp : Response)
    (h : criarVendaSend d w venda vendaReq = (w', .responded resp)) :
    w.jobQueue.length < jobQueueCap ∧ resp = ⟨201, Body.data venda⟩ ∧
      w' = { w with jobQueue := w.jobQueue ++ [vendaReq],
                    redis := if d then w.redis else Redis.del w.redis "vendas:all",
                    log := w.log ++ [Effect.enqueue vendaReq, Effect.cacheDel "vendas:all"] } := by
  by_cases hq : w.jobQueue.length < jobQueueCap
  · rw [criarVendaSend_room d w venda vendaReq hq] at h
    simp only [Prod.mk.injEq, Outcome.responded.injEq] at h
    exact ⟨hq, h.2.symm, h.1.symm⟩
  · rw [criarVendaSend_full d w venda vendaReq (Nat.not_lt.mp hq)] at h
    simp at h

theorem sent_append (l l' : List Effect) : sent (l ++ l') = sent l ++ sent l' := by
  induction l with
  | nil => rfl
  | cons e l ih => cases e <;> simp [sent, ih]

theorem received_append (l l' : List Effect) :
    received (l ++ l') = received l ++ received l' := by
  induction l with
  | nil => rfl
  | cons e l ih => cases e <;> simp [received, ih]

theorem QueueInv_init : QueueInv World.init := by
  refine ⟨by decide, rfl, ?_⟩
  intro x hx
  cases hx

theorem QueueInv_criarVendaSend (d : Bool) (w : World) (v : VendaCompleta)
    (r : VendaRequest) (h : QueueInv w) : QueueInv (criarVendaSend d w v r).1 := by
  by_cases hq : w.jobQueue.length < jobQueueCap
  · rw [criarVendaSend_room d w v r hq]
    obtain ⟨-, h2, h3⟩ := h
    refine ⟨?_, ?_, ?_⟩
    · simp only [List.length_append, List.length_singleton]
      omega
    · simp only [sent_append, received_append, h2, sent, received, List.append_nil,
        List.append_assoc]
    · simpa only [received_append, received, List.append_nil] using h3
  · rw [criarVendaSend_full d w v r (Nat.not_lt.mp hq)]
    exact h

theorem QueueInv_dbInsert (w : World) (db : DB) (e : Effect)
    (he : sent [e] = [] ∧ received [e] = []) (h : QueueInv w) :
    QueueInv { w with db := db, log := w.log ++ [e] } := by
  obtain ⟨h1, h2, h3⟩ := h
  refine ⟨h1, ?_, ?_⟩
  · simp only [sent_append, received_append, he.1, he.2, List.append_nil, h2]
  · simpa only [received_append, he.2, List.append_nil] using h3

theorem QueueInv_criarVenda (env : CreateEnv) (w : World) (body : Option VendaRequest)
    (h : QueueInv w) : QueueInv (criarVenda env w body).1 := by
  cases hb : shouldBindJSON body with
  | error e => rw [criarVenda_bind_error env w body e hb]; exact h
  | ok r =>
    cases hc : buscarCliente r.ClienteID with
    | error e => rw [criarVenda_cliente_error env w body r e hb hc]; exact h
    | ok c =>
      cases hp : buscarProduto r.ProdutoID with
      | error e => rw [criarVenda_produto_error env w body r c e hb hc hp]; exact h
      | ok p =>
        cases hx : env.execFails with
        | true => rw [criarVenda_exec_error env w body r c p hb hc hp hx]; exact h
        | false =>
          have hsend : criarVenda env w body =
              criarVendaSend env.delFails
                { w with
                  db := ⟨w.db.vendas ++ [⟨w.db.autoIncrement, r.ClienteID, r.ProdutoID,
                      r.Quantidade, Float64.mul p.Valor (Float64.ofInt r.Quantidade),
                      some env.now1⟩], w.db.autoIncrement + 1⟩,
                  log := w.log ++ [Effect.dbInsert r.ClienteID r.ProdutoID r.Quantidade
                      (Float64.mul p.Valor (Float64.ofInt r.Quantidade)) env.now1] }
                ⟨⟨w.db.autoIncrement, r.ClienteID, r.ProdutoID, r.Quantidade,
                  Float64.mul p.Valor (Float64.ofInt r.Quantidade), env.now2⟩, c, p⟩ r := by
            simp [criarVenda, hb, hc, hp, dbExec, hx]
          rw [hsend]
          exact QueueInv_criarVendaSend _ _ _ _ (QueueInv_dbInsert w _ _ ⟨rfl, rfl⟩ h)

theorem QueueInv_listarVendas (json : Codec) (env : ListEnv) (w : World)
    (h : QueueInv w) : QueueInv (listarVendas json env w).1 := by
  have hstore : QueueInv (listarVendasStore json env w).1 := by
    cases hq : env.queryFails with
    | true => rw [listarVendasStore_fails json env w hq]; exact h
    | false =>
      rw [listarVendasStore_ok json env w hq]
      unfold setCache
      cases json.marshal (listagem w) with
      | none => exact h
      | some s =>
        obtain ⟨h1, h2, h3⟩ := h
        cases env.setFails with
        | true =>
          refine ⟨h1, ?_, ?_⟩
          · simp only [if_true, sent_append, received_append, sent, received,
              List.append_nil, h2]
          · simpa only [if_true, received_append, received, List.append_nil] using h3
        | false =>
          refine ⟨h1, ?_, ?_⟩
          · simp only [Bool.false_eq_true, if_false, sent_append, received_append, sent,
              received, List.append_nil, h2]
          · simpa only [Bool.false_eq_true, if_false, received_append, received,
              List.append_nil] using h3
  cases hg : env.getFails with
  | true => rw [listarVendas_refused json env w hg]; exact hstore
  | false =>
    cases hget : Redis.get w.redis "vendas:all" with
    | none => rw [listarVendas_miss json env w hget]; exact hstore
    | some s =>
      cases hdec : json.unmarshal s with
      | none => rw [listarVendas_undecodable json env w s hget hdec]; exact hstore
      | some l => rw [listarVendas_hit json env w s l hg hget hdec]; exact h

theorem QueueInv_workerStep (id : Nat) (now : Time) (w w1 : World) (hid : id ∈ workers)
    (hstep : workerStep id now w = some w1) (h : QueueInv w) : QueueInv w1 := by
  obtain ⟨h1, h2, h3⟩ := h
  unfold workerStep at hstep
  cases hq : w.jobQueue with
  | nil => rw [hq] at hstep; simp at hstep
  | cons job rest =>
    rw [hq] at hstep
    simp only [Option.some.injEq] at hstep
    rw [← hstep]
    rw [hq] at h1 h2
    refine ⟨?_, ?_, ?_⟩
    · simp only [processarVenda, List.length_cons] at h1 ⊢
      omega
    · simp only [processarVenda, sent_append, received_append, sent, received,
        List.append_nil, h2, List.map_append, List.map_cons, List.map_nil,
        List.append_assoc, List.singleton_append]
    · intro x hx
      simp only [processarVenda, received_append, received, List.append_nil,
        List.mem_append, List.mem_singleton] at hx
      rcases hx with hx | hx
      · exact h3 x hx
      · rw [hx]; exact hid

/-- Every action of the service preserves the queue invariant. -/
theorem QueueInv_step (json : Codec) (w : World) (a : Action) (h : QueueInv w) :
    QueueInv (step json w a) := by
  cases a with
  | criar env body => exact QueueInv_criarVenda env w body h
  | retomar d venda vendaReq => exact QueueInv_criarVendaSend d w venda vendaReq h
  | listar env => exact QueueInv_listarVendas json env w h
  | trabalhar id now =>
    show QueueInv (if id ∈ workers then
        match workerStep id now w with
        | some w1 => w1
        | none => w
      else w)
    by_cases hid : id ∈ workers
    · rw [if_pos hid]
      cases hstep : workerStep id now w with
      | none => exact h
      | some w1 => exact QueueInv_workerStep id now w w1 hid hstep h
    · rw [if_neg hid]; exact h

/-- Every run of the service preserves the queue invariant. -/
theorem QueueInv_run (json : Codec) (as : List Action) (w : World) (h : QueueInv w) :
    QueueInv (run json w as) := by
  induction as generalizing w with
  | nil => exact h
  | cons a as ih => exact ih _ (QueueInv_step json w a h)


theorem setCache_refused (json : Codec) (w : World) (key : String)
    (value : List VendaCompleta) (ttl : Nat) :
    (setCache json true w key value ttl).1.redis = w.redis := by
  unfold setCache
  cases json.marshal value with
  | none => rfl
  | some s => rfl

/-- C1, refuted as stated: the request `{cliente_id: 1, produto_id: 1,
quantidade: 9007199254740993}` (the quantity is `2^53 + 1`) binds and
resolves, its insert succeeds and it is answered `201`, with a total that
stands for `90071992547409920`, while unit value `10.0` multiplied by the
quantity is `90071992547409930`. -/
theorem C1_counterexample :
    shouldBindJSON (some ⟨1, 1, 9007199254740993⟩) = .ok ⟨1, 1, 9007199254740993⟩ ∧
    (criarVenda ⟨false, 5, 6, false⟩ World.init (some ⟨1, 1, 9007199254740993⟩)).2 =
      .responded ⟨201, Body.data ⟨⟨1, 1, 1, 9007199254740993,
        .finite false 5629499534213120 4, 6⟩,
        ⟨1, "João", "99999-0001"⟩, ⟨1, "Produto A", "Descrição A", Float64.ofInt 10⟩⟩⟩ ∧
    (Float64.ofInt 10).toRat = some 10 ∧
    (Float64.finite false 5629499534213120 4).toRat = some 90071992547409920 ∧
    (90071992547409920 : ℚ) ≠ 10 * 9007199254740993 := by
  refine ⟨by decide, by decide, Float64.toRat_ofInt 10 (by decide), ?_, by norm_num⟩
  simp only [Float64.toRat, Option.some.injEq]
  norm_num

/-- C1, amended: for every request that binds, whose customer and product
identifiers both resolve and whose insert succeeds, the total `criarVenda`
passes to the insert, stores and returns is one and the same value, the
`float64` product `produto.Valor * float64(Quantidade)` of line 202; the unit
value stands for a rational `u`, and whenever `u` times the quantity is below
`2^53` in magnitude the total stands for exactly `u` times the quantity.  The
order `v` it answers with carries that total, the resolved customer and
product; the call responds `201` with `v` when the job queue has room, and
otherwise waits at the send holding `v`, which it returns with `201` once it
is woken with room in the queue. -/
theorem C1_valor_total (env : CreateEnv) (w : World) (body : Option VendaRequest)
    (r : VendaRequest) (c : Cliente) (p : Produto)
    (hb : shouldBindJSON body = .ok r) (hc : buscarCliente r.ClienteID = .ok c)
    (hp : buscarProduto r.ProdutoID = .ok p) (hx : env.execFails = false) :
    ∃ v : VendaCompleta,
      v.Venda.ValorTotal = Float64.mul p.Valor (Float64.ofInt r.Quantidade) ∧
      (∃ u : ℚ, p.Valor.toRat = some u ∧
        (|u * (r.Quantidade : ℚ)| < 2 ^ 53 →
          v.Venda.ValorTotal.toRat = some (u * (r.Quantidade : ℚ)))) ∧
      v.Venda.ClienteID = r.ClienteID ∧ v.Venda.ProdutoID = r.ProdutoID ∧
      v.Venda.Quantidade = r.Quantidade ∧ v.Cliente = c ∧ v.Produto = p ∧
      (∃ rest, (criarVenda env w body).1.log =
        w.log ++ Effect.dbInsert r.ClienteID r.ProdutoID r.Quantidade
          v.Venda.ValorTotal env.now1 :: rest) ∧
      (criarVenda env w body).1.db.vendas =
        w.db.vendas ++ [⟨v.Venda.ID, r.ClienteID, r.ProdutoID, r.Quantidade,
          v.Venda.ValorTotal, some env.now1⟩] ∧
      (criarVenda env w body).2 =
        (if w.jobQueue.length < jobQueueCap then .responded ⟨201, Body.data v⟩
         else .blocked v r) ∧
      ∀ (d : Bool) (w2 : World), w2.jobQueue.length < jobQueueCap →
        (criarVendaSend d w2 v r).2 = .responded ⟨201, Body.data v⟩ := by
  refine ⟨⟨⟨w.db.autoIncrement, r.ClienteID, r.ProdutoID, r.Quantidade,
      Float64.mul p.Valor (Float64.ofInt r.Quantidade), env.now2⟩, c, p⟩,
    rfl, ?_, rfl, rfl, rfl, rfl, rfl, ?_, ?_, ?_, ?_⟩
  · obtain ⟨u, -, hu, htotal⟩ := valorTotal_exact r.Quantidade hp
    exact ⟨u, hu, htotal⟩
  · rw [criarVenda_inserted env w body r c p hb hc hp hx]
    by_cases hq : w.jobQueue.length < jobQueueCap
    · rw [if_pos hq]
      exact ⟨[Effect.enqueue r, Effect.cacheDel "vendas:all"], rfl⟩
    · rw [if_neg hq]
      exact ⟨[], rfl⟩
  · rw [criarVenda_inserted env w body r c p hb hc hp hx]
    by_cases hq : w.jobQueue.length < jobQueueCap
    · rw [if_pos hq]
    · rw [if_neg hq]
  · rw [criarVenda_inserted env w body r c p hb hc hp hx]
    by_cases hq : w.jobQueue.length < jobQueueCap
    · rw [if_pos hq, if_pos hq]
    · rw [if_neg hq, if_neg hq]
  · intro d w2 hq
    rw [criarVendaSend_room _ _ _ _ hq]

/-- C1 amended, at the request `{cliente_id: 1, produto_id: 1, quantidade: 3}`
on the initial state: product 1 has unit value `10.0`, the product `30` is
below `2^53`, and the order returned with `201` has total `30.0`. -/
theorem C1_valor_total_witness :
    ∃ v : VendaCompleta,
      v.Venda.ValorTotal = Float64.ofInt 30 ∧ v.Produto.Valor = Float64.ofInt 10 ∧
      v.Venda.ValorTotal.toRat = some 30 ∧ v.Produto.Valor.toRat = some 10 ∧
      (criarVenda ⟨false, 5, 6, false⟩ World.init (some ⟨1, 1, 3⟩)).2 =
        .responded ⟨201, Body.data v⟩ := by
  obtain ⟨v, hv, ⟨u, hu, hexact⟩, -, -, -, -, hprod, -, -, hres, -⟩ :=
    C1_valor_total ⟨false, 5, 6, false⟩ World.init (some ⟨1, 1, 3⟩) ⟨1, 1, 3⟩
      ⟨1, "João", "99999-0001"⟩ ⟨1, "Produto A", "Descrição A", Float64.ofInt 10⟩
      (by decide) (by decide) (by decide) rfl
  have hu10 : (Float64.ofInt 10).toRat = some 10 := Float64.toRat_ofInt 10 (by decide)
  have hueq : u = 10 := by
    rw [hu10] at hu
    exact (Option.some.inj hu).symm
  subst hueq
  have ht : v.Venda.ValorTotal = Float64.ofInt 30 := by rw [hv]; decide
  refine ⟨v, ht, by rw [hprod], ?_, ?_, ?_⟩
  · rw [hexact (by norm_num)]
    norm_num
  · rw [hprod]; exact hu10
  · rw [hres]; rfl

/-- C2: a call of `criarVenda` that fails leaves everything as it was.  When
the body does not bind, or the customer identifier does not resolve, or the
product identifier does not resolve, the call answers `400` and the state
after it is the state before it: no row written, no cache key deleted, no job
sent, no effect logged.  When the request binds and resolves and the insert
fails, the call answers `500` and again the state is unchanged: no job sent
and no cache key deleted. -/
theorem C2_failure_atomic (env : CreateEnv) (w : World) (body : Option VendaRequest) :
    (((∃ e, shouldBindJSON body = .error e) ∨
        (∃ r, shouldBindJSON body = .ok r ∧
          ((∃ e, buscarCliente r.ClienteID = .error e) ∨
           (∃ e, buscarProduto r.ProdutoID = .error e)))) →
      ∃ msg, criarVenda env w body = (w, .responded ⟨400, Body.error msg⟩)) ∧
    ((∃ r c p, shouldBindJSON body = .ok r ∧ buscarCliente r.ClienteID = .ok c ∧
        buscarProduto r.ProdutoID = .ok p) →
      env.execFails = true →
      criarVenda env w body = (w, .responded ⟨500, Body.error "Erro ao criar venda"⟩)) := by
  constructor
  · rintro (⟨e, hb⟩ | ⟨r, hb, ⟨e, hc⟩ | ⟨e, hp⟩⟩)
    · exact ⟨_, criarVenda_bind_error env w body e hb⟩
    · exact ⟨_, criarVenda_cliente_error env w body r e hb hc⟩
    · cases hc : buscarCliente r.ClienteID with
      | error e2 => exact ⟨_, criarVenda_cliente_error env w body r e2 hb hc⟩
      | ok c => exact ⟨_, criarVenda_produto_error env w body r c e hb hc hp⟩
  · rintro ⟨r, c, p, hb, hc, hp⟩ hx
    exact criarVenda_exec_error env w body r c p hb hc hp hx

/-- C2, at customer 999 (only 1 and 2 exist), at product 999, at a body that
does not decode, and at a failing insert, on a state with a cached listing and
a queued job. -/
theorem C2_failure_atomic_witness :
    (∃ msg, criarVenda ⟨false, 5, 6, false⟩
        ⟨⟨[], 1⟩, [("vendas:all", ⟨Text.array [], 300000000000⟩)], [⟨2, 2, 1⟩], []⟩ (some ⟨999, 1, 3⟩) =
      (⟨⟨[], 1⟩, [("vendas:all", ⟨Text.array [], 300000000000⟩)], [⟨2, 2, 1⟩], []⟩,
        .responded ⟨400, Body.error msg⟩)) ∧
    (∃ msg, criarVenda ⟨false, 5, 6, false⟩
        ⟨⟨[], 1⟩, [("vendas:all", ⟨Text.array [], 300000000000⟩)], [⟨2, 2, 1⟩], []⟩ (some ⟨1, 999, 3⟩) =
      (⟨⟨[], 1⟩, [("vendas:all", ⟨Text.array [], 300000000000⟩)], [⟨2, 2, 1⟩], []⟩,
        .responded ⟨400, Body.error msg⟩)) ∧
    (∃ msg, criarVenda ⟨false, 5, 6, false⟩
        ⟨⟨[], 1⟩, [("vendas:all", ⟨Text.array [], 300000000000⟩)], [⟨2, 2, 1⟩], []⟩ none =
      (⟨⟨[], 1⟩, [("vendas:all", ⟨Text.array [], 300000000000⟩)], [⟨2, 2, 1⟩], []⟩,
        .responded ⟨400, Body.error msg⟩)) ∧
    criarVenda ⟨true, 5, 6, false⟩
        ⟨⟨[], 1⟩, [("vendas:all", ⟨Text.array [], 300000000000⟩)], [⟨2, 2, 1⟩], []⟩ (some ⟨1, 1, 3⟩) =
      (⟨⟨[], 1⟩, [("vendas:all", ⟨Text.array [], 300000000000⟩)], [⟨2, 2, 1⟩], []⟩,
        .responded ⟨500, Body.error "Erro ao criar venda"⟩) :=
  ⟨(C2_failure_atomic _ _ _).1 (Or.inr ⟨⟨999, 1, 3⟩, by decide, Or.inl ⟨_, rfl⟩⟩),
   (C2_failure_atomic _ _ _).1 (Or.inr ⟨⟨1, 999, 3⟩, by decide, Or.inr ⟨_, rfl⟩⟩),
   (C2_failure_atomic _ _ _).1 (Or.inl ⟨_, rfl⟩),
   (C2_failure_atomic _ _ _).2 ⟨⟨1, 1, 3⟩, _, _, by decide, rfl, rfl⟩ rfl⟩

/-- C3, refuted as stated: the request `{cliente_id: 1, produto_id: 1,
quantidade: 3}` on the initial state is answered `201`, and the effects of the
call are the insert, then the send on the job queue, then the deletion of
`vendas:all`; the deletion does not come before the send. -/
theorem C3_counterexample :
    (criarVenda ⟨false, 5, 6, false⟩ World.init (some ⟨1, 1, 3⟩)).2 =
      .responded ⟨201, Body.data ⟨⟨1, 1, 1, 3, Float64.ofInt 30, 6⟩,
        ⟨1, "João", "99999-0001"⟩, ⟨1, "Produto A", "Descrição A", Float64.ofInt 10⟩⟩⟩ ∧
    (criarVenda ⟨false, 5, 6, false⟩ World.init (some ⟨1, 1, 3⟩)).1.log =
      [Effect.dbInsert 1 1 3 (Float64.ofInt 30) 5, Effect.enqueue ⟨1, 1, 3⟩,
        Effect.cacheDel "vendas:all"] ∧
    (criarVenda ⟨false, 5, 6, false⟩ World.init (some ⟨1, 1, 3⟩)).1.log ≠
      [Effect.dbInsert 1 1 3 (Float64.ofInt 30) 5, Effect.cacheDel "vendas:all",
        Effect.enqueue ⟨1, 1, 3⟩] := by
  decide

/-- C3, amended: a call of `criarVenda` answered `201` performs exactly three
effects, in this order: the insert of the order, the send of the request on
the job queue, and the deletion of the cache key `vendas:all`.  A call that
waits at the send has performed the insert alone, and performs the send and
then the deletion when it is woken and answers.  So the send and the deletion
both come after the insert has succeeded, the send first. -/
theorem C3_effects_in_order (env : CreateEnv) (w : World) (body : Option VendaRequest) :
    (∀ w' resp, criarVenda env w body = (w', .responded resp) → resp.status = 201 →
      ∃ r total, shouldBindJSON body = .ok r ∧
        w'.log = w.log ++ [Effect.dbInsert r.ClienteID r.ProdutoID r.Quantidade total env.now1,
          Effect.enqueue r, Effect.cacheDel "vendas:all"]) ∧
    (∀ w' v r, criarVenda env w body = (w', .blocked v r) →
      (∃ total, shouldBindJSON body = .ok r ∧
        w'.log = w.log ++
          [Effect.dbInsert r.ClienteID r.ProdutoID r.Quantidade total env.now1]) ∧
      ∀ d w2 w3 resp, criarVendaSend d w2 v r = (w3, .responded resp) →
        resp.status = 201 ∧
        w3.log = w2.log ++ [Effect.enqueue r, Effect.cacheDel "vendas:all"]) := by
  constructor
  · intro w' resp h hs
    obtain ⟨r, c, p, hb, -, -, -, -, -, hw⟩ := criarVenda_created env w w' body resp h hs
    exact ⟨r, _, hb, by rw [hw]⟩
  · intro w' v r h
    obtain ⟨p, hb, -, -, hw⟩ := criarVenda_blocked env w w' body v r h
    refine ⟨⟨_, hb, by rw [hw]⟩, ?_⟩
    intro d w2 w3 resp h2
    obtain ⟨-, hresp, hw3⟩ := criarVendaSend_responded d w2 w3 v r resp h2
    exact ⟨by rw [hresp], by rw [hw3]⟩

/-- C3 amended, at the request `{cliente_id: 1, produto_id: 1, quantidade: 3}`
on the initial state. -/
theorem C3_effects_in_order_witness :
    ∃ r total, shouldBindJSON (some ⟨1, 1, 3⟩) = .ok r ∧
      (criarVenda ⟨false, 5, 6, false⟩ World.init (some ⟨1, 1, 3⟩)).1.log =
        World.init.log ++ [Effect.dbInsert r.ClienteID r.ProdutoID r.Quantidade total 5,
          Effect.enqueue r, Effect.cacheDel "vendas:all"] :=
  (C3_effects_in_order ⟨false, 5, 6, false⟩ World.init (some ⟨1, 1, 3⟩)).1
    (criarVenda ⟨false, 5, 6, false⟩ World.init (some ⟨1, 1, 3⟩)).1
    ⟨201, Body.data ⟨⟨1, 1, 1, 3, Float64.ofInt 30, 6⟩,
        ⟨1, "João", "99999-0001"⟩, ⟨1, "Produto A", "Descrição A", Float64.ofInt 10⟩⟩⟩
    (by decide) rfl

/-- C6: for every list of `N` orders read from the store, the fan-out of
`listarVendas` yields exactly `N` entries, the entry at every index embeds the
order at that index, and the result is the same whatever the order in which
the goroutines take their steps: it is the enrichment of each order on its
own, mapped over the list.  A store-sourced answer of `listarVendas` carries
that list for the rows of the query, which are the rows of the table in
descending order of `data_venda`. -/
theorem C6_fanOut_order_preserved (vendas : List Venda) (sched sched' : List Nat) :
    (fanOut vendas sched).length = vendas.length ∧
    (∀ i : Nat, ((fanOut vendas sched)[i]?).map VendaCompleta.Venda = vendas[i]?) ∧
    fanOut vendas sched = fanOut vendas sched' ∧
    fanOut vendas sched = vendas.map enriquecer ∧
    (∀ (json : Codec) (w : World) (queryFails getFails setFails : Bool) (rows : List Row),
      Redis.get w.redis "vendas:all" = none → dbQuery queryFails w = .ok rows →
      rows.Sorted Row.before ∧ rows.Perm w.db.vendas ∧
      (listarVendas json ⟨queryFails, sched, getFails, setFails⟩ w).2 =
        ⟨200, Body.list ((scanRows rows).map enriquecer) "database"⟩) := by
  refine ⟨?_, ?_, ?_, fanOut_eq_map vendas sched, ?_⟩
  · rw [fanOut_eq_map, List.length_map]
  · intro i
    rw [fanOut_eq_map, List.getElem?_map, Option.map_map]
    cases vendas[i]? with
    | none => rfl
    | some v => simp [enriquecer_Venda]
  · rw [fanOut_eq_map, fanOut_eq_map]
  · intro json w queryFails getFails setFails rows hmiss hq
    obtain ⟨hsorted, hperm⟩ := dbQuery_sorted w rows queryFails hq
    refine ⟨hsorted, hperm, ?_⟩
    cases queryFails with
    | true => simp [dbQuery] at hq
    | false =>
      simp only [dbQuery, Bool.false_eq_true, if_false, Except.ok.injEq] at hq
      rw [listarVendas_miss json _ w hmiss, listarVendasStore_ok json _ w rfl, ← hq]
      rfl

/-- C6, on a table of three rows stored out of order, with two interleavings of
the goroutines: the answer lists orders 2, 3, 1, by descending `data_venda`,
under both. -/
theorem C6_fanOut_order_preserved_witness :
    (listarVendas encodingJSON ⟨false, [2, 0, 1, 1, 0, 2, 2, 1, 0], false, false⟩
      ⟨⟨[⟨1, 1, 1, 1, Float64.ofInt 10, some 3⟩, ⟨2, 2, 2, 1, Float64.ofInt 20, some 9⟩,
         ⟨3, 1, 2, 2, Float64.ofInt 40, some 7⟩], 4⟩, [], [], []⟩).2 =
      ⟨200, Body.list
        [enriquecer ⟨2, 2, 2, 1, Float64.ofInt 20, 9⟩,
         enriquecer ⟨3, 1, 2, 2, Float64.ofInt 40, 7⟩,
         enriquecer ⟨1, 1, 1, 1, Float64.ofInt 10, 3⟩] "database"⟩ ∧
    fanOut [⟨2, 2, 2, 1, Float64.ofInt 20, 9⟩, ⟨3, 1, 2, 2, Float64.ofInt 40, 7⟩]
        [1, 1, 0, 1, 0, 0] =
      fanOut [⟨2, 2, 2, 1, Float64.ofInt 20, 9⟩, ⟨3, 1, 2, 2, Float64.ofInt 40, 7⟩]
        [0, 1] :=
  ⟨((C6_fanOut_order_preserved [] [2, 0, 1, 1, 0, 2, 2, 1, 0] []).2.2.2.2 encodingJSON
      ⟨⟨[⟨1, 1, 1, 1, Float64.ofInt 10, some 3⟩, ⟨2, 2, 2, 1, Float64.ofInt 20, some 9⟩,
         ⟨3, 1, 2, 2, Float64.ofInt 40, some 7⟩], 4⟩, [], [], []⟩ false false false
      [⟨2, 2, 2, 1, Float64.ofInt 20, some 9⟩, ⟨3, 1, 2, 2, Float64.ofInt 40, some 7⟩,
        ⟨1, 1, 1, 1, Float64.ofInt 10, some 3⟩] rfl (by decide)).2.2,
   (C6_fanOut_order_preserved
      [⟨2, 2, 2, 1, Float64.ofInt 20, 9⟩, ⟨3, 1, 2, 2, Float64.ofInt 40, 7⟩]
      [1, 1, 0, 1, 0, 0] [0, 1]).2.2.1⟩

/-- C7: in a store-sourced answer of `listarVendas` a failed lookup does not
fail the listing.  When the cache holds no decodable listing and the query
succeeds, the answer is a `200` carrying one entry per scanned row; every
entry keeps its order intact; its customer is the one found, or the zero
customer (`ID` 0, empty name and phone) when the customer identifier is
unknown; its product is the one found, or the zero product when the product
identifier is unknown.  The customer depends on the customer lookup alone and
the product on the product lookup alone, and each entry depends on its own
order alone.  Every row of the table that scans has its entry in the answer,
whether its lookups fail or not. -/
theorem C7_lookup_failure_defaults (json : Codec) (env : ListEnv) (w : World)
    (hcache : ∀ s, Redis.get w.redis "vendas:all" = some s → json.unmarshal s = none)
    (hq : env.queryFails = false) :
    (listarVendas json env w).2 =
      ⟨200, Body.list ((scanRows (w.db.vendas.insertionSort Row.before)).map enriquecer)
        "database"⟩ ∧
    (∀ (row : Row) (t : Time), row ∈ w.db.vendas → row.data_venda = some t →
      enriquecer ⟨row.id, row.cliente_id, row.produto_id, row.quantidade,
        row.valor_total, t⟩ ∈
        (scanRows (w.db.vendas.insertionSort Row.before)).map enriquecer) ∧
    ∀ v : Venda,
      (enriquecer v).Venda = v ∧
      (∀ e, buscarCliente v.ClienteID = .error e → (enriquecer v).Cliente = ⟨0, "", ""⟩) ∧
      (∀ c, buscarCliente v.ClienteID = .ok c → (enriquecer v).Cliente = c) ∧
      (∀ e, buscarProduto v.ProdutoID = .error e →
        (enriquecer v).Produto = ⟨0, "", "", .finite false 0 0⟩) ∧
      (∀ p, buscarProduto v.ProdutoID = .ok p → (enriquecer v).Produto = p) := by
  refine ⟨?_, fun row t hrow ht => mem_listagem hrow ht, ?_⟩
  · cases hget : Redis.get w.redis "vendas:all" with
    | none =>
      rw [listarVendas_miss json env w hget, listarVendasStore_ok json env w hq]
      rfl
    | some s =>
      rw [listarVendas_undecodable json env w s hget (hcache s hget),
        listarVendasStore_ok json env w hq]
      rfl
  · intro v
    refine ⟨enriquecer_Venda v, ?_, ?_, ?_, ?_⟩
    · intro e he
      rw [enriquecer_Cliente, he]; rfl
    · intro c hc
      rw [enriquecer_Cliente, hc]
    · intro e he
      rw [enriquecer_Produto, he]; rfl
    · intro p hp
      rw [enriquecer_Produto, hp]

/-- C7, on a table of two rows: the order of the unknown customer 999 for
product 2, and an order of customer 1 for the unknown product 7.  The answer
is a `200` with both entries, the first with the zero customer and product 2,
the second with customer 1 and the zero product. -/
theorem C7_lookup_failure_defaults_witness :
    (listarVendas encodingJSON ⟨false, [1, 0, 0, 1], false, false⟩
      ⟨⟨[⟨1, 999, 2, 4, Float64.ofInt 80, some 9⟩, ⟨2, 1, 7, 1, Float64.ofInt 10, some 8⟩], 3⟩,
        [], [], []⟩).2 =
      ⟨200, Body.list
        [⟨⟨1, 999, 2, 4, Float64.ofInt 80, 9⟩, ⟨0, "", ""⟩,
            ⟨2, "Produto B", "Descrição B", Float64.ofInt 20⟩⟩,
         ⟨⟨2, 1, 7, 1, Float64.ofInt 10, 8⟩, ⟨1, "João", "99999-0001"⟩,
            ⟨0, "", "", .finite false 0 0⟩⟩]
        "database"⟩ := by
  have h := (C7_lookup_failure_defaults encodingJSON ⟨false, [1, 0, 0, 1], false, false⟩
      ⟨⟨[⟨1, 999, 2, 4, Float64.ofInt 80, some 9⟩, ⟨2, 1, 7, 1, Float64.ofInt 10, some 8⟩], 3⟩,
        [], [], []⟩
      (by intro s hs; simp [Redis.get] at hs) rfl).1
  rw [h]
  decide

/-- C8: the job queue is a bounded FIFO of capacity 100.  In every state the
service reaches from its start, the queue holds at most 100 jobs, and the jobs
sent are, in order, the jobs received followed by the jobs still queued: no
job is dropped or duplicated, and each received job was received once, by one
of the workers 1, 2 and 3.  With 100 jobs queued, a `criarVenda` that reaches
the send waits there and the queue is unchanged.  When a worker then receives
one job, the queue holds 99 jobs (the head is gone, the rest is untouched):
one waiting send proceeds and answers `201`, the queue is full again, and any
other waiting send still waits. -/
theorem C8_job_queue_bounded_fifo (json : Codec) (as : List Action) :
    (run json World.init as).jobQueue.length ≤ 100 ∧
    sent (run json World.init as).log =
      (received (run json World.init as).log).map Prod.snd ++
        (run json World.init as).jobQueue ∧
    (∀ x ∈ received (run json World.init as).log, x.1 = 1 ∨ x.1 = 2 ∨ x.1 = 3) ∧
    (∀ w : World, w.jobQueue.length = 100 →
      (∀ env body r c p, shouldBindJSON body = .ok r → buscarCliente r.ClienteID = .ok c →
        buscarProduto r.ProdutoID = .ok p → env.execFails = false →
        (∃ v, (criarVenda env w body).2 = .blocked v r) ∧
        (criarVenda env w body).1.jobQueue = w.jobQueue ∧
        sent (criarVenda env w body).1.log = sent w.log) ∧
      (∀ id now, id ∈ workers →
        ∃ job w1, workerStep id now w = some w1 ∧ w.jobQueue = job :: w1.jobQueue ∧
          w1.jobQueue.length = 99 ∧
          received w1.log = received w.log ++ [(id, job)] ∧
          ∀ d1 d2 v1 r1 v2 r2, ∃ w2,
            criarVendaSend d1 w1 v1 r1 = (w2, .responded ⟨201, Body.data v1⟩) ∧
            w2.jobQueue = w1.jobQueue ++ [r1] ∧ w2.jobQueue.length = 100 ∧
            criarVendaSend d2 w2 v2 r2 = (w2, .blocked v2 r2))) := by
  obtain ⟨h1, h2, h3⟩ := QueueInv_run json as World.init QueueInv_init
  refine ⟨h1, h2, ?_, ?_⟩
  · intro x hx
    have := h3 x hx
    simpa [workers] using this
  · intro w hw
    constructor
    · intro env body r c p hb hc hp hx
      have hfull : ¬ w.jobQueue.length < jobQueueCap := by
        rw [hw]; decide
      rw [criarVenda_inserted env w body r c p hb hc hp hx, if_neg hfull]
      refine ⟨⟨_, rfl⟩, rfl, ?_⟩
      simp only [sent_append, sent, List.append_nil]
    · intro id now _
      cases hq : w.jobQueue with
      | nil => rw [hq] at hw; simp at hw
      | cons job rest =>
        have hrest : rest.length = 99 := by
          rw [hq] at hw
          simpa using hw
        refine ⟨job, processarVenda
          { w with jobQueue := rest, log := w.log ++ [Effect.dequeue id job] } job now,
          ?_, rfl, hrest, ?_, ?_⟩
        · simp [workerStep, hq]
        · simp only [processarVenda, received_append, received, List.append_nil]
        · intro d1 d2 v1 r1 v2 r2
          have hroom : (processarVenda
              { w with jobQueue := rest, log := w.log ++ [Effect.dequeue id job] }
              job now).jobQueue.length < jobQueueCap := by
            show rest.length < jobQueueCap
            rw [hrest]; decide
          refine ⟨_, criarVendaSend_room d1 _ v1 r1 hroom, rfl, ?_, ?_⟩
          · show (rest ++ [r1]).length = 100
            simp [hrest]
          · apply criarVendaSend_full
            show jobQueueCap ≤ (rest ++ [r1]).length
            simp [hrest, jobQueueCap]

/-- C8, on a run of two created orders, a turn of worker 2 and a listing: the
queue is within its capacity, and the two jobs sent are the job worker 2
received followed by the job still queued. -/
theorem C8_job_queue_bounded_fifo_witness :
    (run encodingJSON World.init
      [.criar ⟨false, 5, 6, false⟩ (some ⟨1, 1, 3⟩), .criar ⟨false, 7, 8, false⟩ (some ⟨2, 2, 1⟩),
       .trabalhar 2 9, .listar ⟨false, [], false, false⟩]).jobQueue.length ≤ 100 ∧
    sent (run encodingJSON World.init
      [.criar ⟨false, 5, 6, false⟩ (some ⟨1, 1, 3⟩), .criar ⟨false, 7, 8, false⟩ (some ⟨2, 2, 1⟩),
       .trabalhar 2 9, .listar ⟨false, [], false, false⟩]).log =
      (received (run encodingJSON World.init
        [.criar ⟨false, 5, 6, false⟩ (some ⟨1, 1, 3⟩), .criar ⟨false, 7, 8, false⟩ (some ⟨2, 2, 1⟩),
         .trabalhar 2 9, .listar ⟨false, [], false, false⟩]).log).map Prod.snd ++
      (run encodingJSON World.init
        [.criar ⟨false, 5, 6, false⟩ (some ⟨1, 1, 3⟩), .criar ⟨false, 7, 8, false⟩ (some ⟨2, 2, 1⟩),
         .trabalhar 2 9, .listar ⟨false, [], false, false⟩]).jobQueue :=
  ⟨(C8_job_queue_bounded_fifo encodingJSON _).1, (C8_job_queue_bounded_fifo encodingJSON _).2.1⟩

/-- C10: the reference lookups are key-consistent.  `buscarCliente id`
succeeds exactly when `id` is 1 or 2, and the customer it returns has
`ID = id`; the same holds for `buscarProduto`.  So the order `criarVenda`
answers with (at once or after waiting at the send) embeds the customer whose
`ID` is the order's `ClienteID` and the product whose `ID` is its `ProdutoID`,
and so does every entry of the enrichment of `listarVendas` whose customer
(product) identifier resolves. -/
theorem C10_lookups_key_consistent :
    (∀ id : Int, ((∃ c, buscarCliente id = .ok c) ↔ (id = 1 ∨ id = 2)) ∧
      ∀ c, buscarCliente id = .ok c → c.ID = id) ∧
    (∀ id : Int, ((∃ p, buscarProduto id = .ok p) ↔ (id = 1 ∨ id = 2)) ∧
      ∀ p, buscarProduto id = .ok p → p.ID = id) ∧
    (∀ env w body w' v, criarVenda env w body = (w', .responded ⟨201, Body.data v⟩) →
      v.Cliente.ID = v.Venda.ClienteID ∧ v.Produto.ID = v.Venda.ProdutoID) ∧
    (∀ env w body w' v r, criarVenda env w body = (w', .blocked v r) →
      v.Cliente.ID = v.Venda.ClienteID ∧ v.Produto.ID = v.Venda.ProdutoID) ∧
    (∀ vendas sched, ∀ e ∈ fanOut vendas sched,
      ((∃ c, buscarCliente e.Venda.ClienteID = .ok c) → e.Cliente.ID = e.Venda.ClienteID) ∧
      ((∃ p, buscarProduto e.Venda.ProdutoID = .ok p) → e.Produto.ID = e.Venda.ProdutoID)) := by
  refine ⟨fun id => ⟨buscarCliente_ok_iff id, fun c h => buscarCliente_ID h⟩,
    fun id => ⟨buscarProduto_ok_iff id, fun p h => buscarProduto_ID h⟩, ?_, ?_, ?_⟩
  · intro env w body w' v h
    obtain ⟨r, c, p, -, hc, hp, -, -, hresp, -⟩ :=
      criarVenda_created env w w' body _ h rfl
    simp only [Response.mk.injEq, Body.data.injEq, true_and] at hresp
    subst hresp
    exact ⟨buscarCliente_ID hc, buscarProduto_ID hp⟩
  · intro env w body w' v r h
    cases hb : shouldBindJSON body with
    | error e =>
      rw [criarVenda_bind_error env w body e hb] at h
      simp at h
    | ok r0 =>
      cases hc : buscarCliente r0.ClienteID with
      | error e =>
        rw [criarVenda_cliente_error env w body r0 e hb hc] at h
        simp at h
      | ok c =>
        cases hp : buscarProduto r0.ProdutoID with
        | error e =>
          rw [criarVenda_produto_error env w body r0 c e hb hc hp] at h
          simp at h
        | ok p =>
          cases hx : env.execFails with
          | true =>
            rw [criarVenda_exec_error env w body r0 c p hb hc hp hx] at h
            simp at h
          | false =>
            rw [criarVenda_inserted env w body r0 c p hb hc hp hx] at h
            by_cases hq : w.jobQueue.length < jobQueueCap
            · rw [if_pos hq] at h
              simp at h
            · rw [if_neg hq] at h
              simp only [Prod.mk.injEq, Outcome.blocked.injEq] at h
              obtain ⟨-, hv, -⟩ := h
              subst hv
              exact ⟨buscarCliente_ID hc, buscarProduto_ID hp⟩
  · intro vendas sched e he
    rw [fanOut_eq_map] at he
    obtain ⟨v, -, rfl⟩ := List.mem_map.mp he
    constructor
    · rintro ⟨c, hc⟩
      rw [enriquecer_Venda] at hc
      rw [enriquecer_Cliente, enriquecer_Venda, hc]
      exact buscarCliente_ID hc
    · rintro ⟨p, hp⟩
      rw [enriquecer_Venda] at hp
      rw [enriquecer_Produto, enriquecer_Venda, hp]
      exact buscarProduto_ID hp

/-- C10, at the identifiers 1 and 3: customer 1 resolves and carries `ID` 1,
and no customer 3 resolves. -/
theorem C10_lookups_key_consistent_witness :
    (∃ c, buscarCliente 1 = .ok c) ∧ (¬ ∃ c, buscarCliente 3 = .ok c) ∧
    (∀ c, buscarCliente 1 = .ok c → c.ID = 1) :=
  ⟨(C10_lookups_key_consistent.1 1).1.mpr (Or.inl rfl),
   fun h => absurd ((C10_lookups_key_consistent.1 3).1.mp h) (by decide),
   (C10_lookups_key_consistent.1 1).2⟩

end Vendas
